import Mathlib

/-!
# Verification of the noisy-simulator `StateVector` trajectory engine

This file is a shallow embedding of `noisy-simulator/src/state_vector_simulator.rs`:
the `StateVector` data structure, its Kraus-operator sampling algorithm, the
effect-probability computation, and the `StateVectorSimulator` wrapper with its
poisoned-on-error state slot.

Modelling conventions:
* `f64` arithmetic is embedded as exact rational (`ℚ`) arithmetic.
* Renormalization in the source divides every amplitude by `√norm_squared`,
  which leaves `ℚ`.  We therefore represent the amplitude vector exactly as
  `data / √normDen`: the raw rational vector `data` together with a rational
  `normDen`, the product of all norm-squared renormalization divisors applied
  so far (`normDen = 1` for freshly constructed states).  Scaling every entry
  by `1/√s` is then represented exactly by multiplying `normDen` by `s`; every
  squared norm and every real part of an inner product of represented
  amplitudes is the corresponding rational expression in `data` divided by
  `normDen`, so all quantities the source branches on are exact rationals.
* A Rust slice indexing that can panic (`kraus_operators[i]` out of bounds) is
  modelled by returning `none`; `some r` models normal (value or error) return.
* Items of the crate that are outside the embedded file (`apply_kernel`, the
  `TOLERANCE` constant, the `Error` enum, `Operation`, `Instrument`, the
  `handle_error!` macro) are modelled from the spec, as marked on each item.
-/

namespace NoisySim

/-- Complex numbers with rational components, embedding the `Complex<f64>`
entries of `ComplexVector` and `SquareMatrix`. -/
structure Cq where
  re : ℚ
  im : ℚ
deriving DecidableEq, Repr

instance : Zero Cq := ⟨⟨0, 0⟩⟩
instance : Add Cq := ⟨fun a b => ⟨a.re + b.re, a.im + b.im⟩⟩
instance : Mul Cq := ⟨fun a b => ⟨a.re * b.re - a.im * b.im, a.re * b.im + a.im * b.re⟩⟩

/-- Complex conjugate. -/
def Cq.conj (a : Cq) : Cq := ⟨a.re, -a.im⟩

/-- Squared modulus of one complex entry. -/
def Cq.normSq (a : Cq) : ℚ := a.re * a.re + a.im * a.im

/-- Embeds `ComplexVector` (a dense complex vector). -/
abbrev ComplexVector := List Cq

/-- Embeds `SquareMatrix` (row-major list of rows). -/
abbrev SquareMatrix := List (List Cq)

/-- Squared L2 norm of a raw vector (`ComplexVector::norm_squared`). -/
def normSqV (v : ComplexVector) : ℚ := (v.map Cq.normSq).sum

/-- Real part of `a.dot(&b.conjugate())`: `Re (Σ aᵢ * conj bᵢ)`. -/
def dotConjRe (a b : ComplexVector) : ℚ :=
  ((List.zipWith (fun (x y : Cq) => x * y.conj) a b).sum).re

/-- Modelled from the spec: the crate-level constant `TOLERANCE` (not part of
the embedded file).  The spec fixes only its magnitude (`1e-12 … 1e-9`); we fix
the representative value `1e-12`. -/
def TOLERANCE : ℚ := 1 / 1000000000000

/-- Modelled from the spec: the crate-level `Error` enum (§7 of the spec).
The diagnostic message payload of `InvalidState` and the precise payload of a
propagated kernel error are omitted; claims only discriminate error kinds. -/
inductive Error where
  | probabilityZeroEvent
  | failedToSampleKrausOperators
  | failedToSampleInstrumentOutcome
  | invalidState
  | notNormalized (trace : ℚ)
  | kernelError
deriving DecidableEq, Repr

instance {ε α : Type} [DecidableEq ε] [DecidableEq α] : DecidableEq (Except ε α) := fun x y =>
  match x, y with
  | .ok a, .ok b =>
    if h : a = b then isTrue (by rw [h]) else isFalse (by simp [h])
  | .ok _, .error _ => isFalse (fun hc => Except.noConfusion hc)
  | .error _, .ok _ => isFalse (fun hc => Except.noConfusion hc)
  | .error a, .error b =>
    if h : a = b then isTrue (by rw [h]) else isFalse (by simp [h])

/-- Writes `b` as bit `q` of `j`, leaving all other bits unchanged. -/
def setBit (j q : ℕ) (b : Bool) : ℕ :=
  (j / 2 ^ (q + 1)) * 2 ^ (q + 1) + (if b then 2 ^ q else 0) + j % 2 ^ q

/-- Gathers the bits of `j` at the positions in `qs` (position `0` of the
result is the bit of `j` at `qs.head`, i.e. little-endian as in the spec). -/
def extractBits (j : ℕ) : List ℕ → ℕ
  | [] => 0
  | q :: qs => (if j.testBit q then 1 else 0) + 2 * extractBits j qs

/-- Scatters the bits of `m` into `j` at the positions in `qs`. -/
def writeBits (j : ℕ) : List ℕ → ℕ → ℕ
  | [], _ => j
  | q :: qs, m => writeBits (setBit j q (m % 2 == 1)) qs (m / 2)

/-- Entry of a row-major matrix, `0` out of range. -/
def matrixEntry (m : SquareMatrix) (r c : ℕ) : Cq := (m.getD r []).getD c 0

/-- Modelled from the spec: the external linear-algebra kernel
`apply_kernel(state, matrix, qubits)` (spec §6), whose implementation lives
outside the embedded file.  It applies the `2^k × 2^k` matrix to the subspace
indexed by `qubits` (little-endian, qubit `0` least significant), preserves the
vector length, and fails only if a qubit is out of range or duplicated or the
matrix side disagrees with `2^|qubits|`. -/
def apply_kernel (state : ComplexVector) (matrix : SquareMatrix) (qubits : List ℕ) :
    Except Error ComplexVector :=
  if qubits.any (fun q => state.length < 2 ^ (q + 1)) ∨ ¬ qubits.Nodup
      ∨ matrix.length ≠ 2 ^ qubits.length then
    .error .kernelError
  else
    .ok ((List.range state.length).map (fun j =>
      ((List.range (2 ^ qubits.length)).map (fun m =>
        matrixEntry matrix (extractBits j qubits) m *
          state.getD (writeBits j qubits m) 0)).sum))

/-- Embeds `StateVector`.  The fields `dim`, `number_of_qubits`,
`trace_change` and `data` are the source's fields; the represented amplitude
vector is `data / √normDen` (see the file header), with `normDen = 1` for the
states the source constructs directly. -/
structure StateVector where
  dim : ℕ
  number_of_qubits : ℕ
  trace_change : ℚ
  data : ComplexVector
  normDen : ℚ
deriving DecidableEq, Repr

/-- Embeds `StateVector::new`: `data[0] = 1`, everything else `0`,
`dim = 1 << number_of_qubits`, `trace_change = 1`. -/
def StateVector.new (number_of_qubits : ℕ) : StateVector :=
  { dim := 2 ^ number_of_qubits
    number_of_qubits := number_of_qubits
    trace_change := 1
    data := (List.replicate (2 ^ number_of_qubits) (0 : Cq)).set 0 ⟨1, 0⟩
    normDen := 1 }

/-- Embeds `StateVector::try_from`: `None` unless `1 << number_of_qubits == dim`
and `data.len() == dim * dim`. -/
def StateVector.try_from (dim number_of_qubits : ℕ) (trace_change : ℚ)
    (data : ComplexVector) : Option StateVector :=
  if 2 ^ number_of_qubits ≠ dim ∨ data.length ≠ dim * dim then none
  else some { dim := dim, number_of_qubits := number_of_qubits,
              trace_change := trace_change, data := data, normDen := 1 }

/-- Embeds `StateVector::norm_squared` on represented amplitudes. -/
def StateVector.norm_squared (st : StateVector) : ℚ := normSqV st.data / st.normDen

/-- Embeds `StateVector::is_normalized`:
`(self.norm_squared() - 1.0).abs() <= TOLERANCE`. -/
def StateVector.is_normalized (st : StateVector) : Prop :=
  |st.norm_squared - 1| ≤ TOLERANCE

instance (st : StateVector) : Decidable st.is_normalized := by
  unfold StateVector.is_normalized; infer_instance

/-- Embeds `StateVector::renormalize_with_norm_squared`: error
`ProbabilityZeroEvent` if `norm_squared < TOLERANCE`, else every amplitude is
scaled by `1/√norm_squared` — represented exactly by multiplying `normDen` by
`norm_squared`. -/
def StateVector.renormalize_with_norm_squared (st : StateVector) (norm_squared : ℚ) :
    Except Error StateVector :=
  if norm_squared < TOLERANCE then .error .probabilityZeroEvent
  else .ok { st with normDen := st.normDen * norm_squared }

/-- Embeds `StateVector::renormalize` (recomputes the squared norm). -/
def StateVector.renormalize (st : StateVector) : Except Error StateVector :=
  st.renormalize_with_norm_squared st.norm_squared

/-- Embeds `StateVector::effect_probability`: clone the data, apply the kernel
of the effect matrix, return `Re (copy · conj data)` on represented
amplitudes. -/
def StateVector.effect_probability (st : StateVector) (effect_matrix : SquareMatrix)
    (qubits : List ℕ) : Except Error ℚ :=
  match apply_kernel st.data effect_matrix qubits with
  | .error e => .error e
  | .ok copy => .ok (dotConjRe copy st.data / st.normDen)

/-- Outcome of the `for` loop inside `sample_kraus_operators`: a kernel error
aborts it, a branch commits (early `return`), or it runs to completion with
the final `summed_probability` and `last_non_zero_*` records. -/
inductive KrausLoopResult where
  | kernelErr (e : Error)
  | committed (i : ℕ) (norm_squared : ℚ) (data : ComplexVector)
  | fellThrough (summed last_p : ℚ) (last_i : ℕ)
deriving DecidableEq, Repr

/-- Embeds the `for (i, kraus_operator)` loop of
`StateVector::sample_kraus_operators`, with the loop-carried
`summed_probability`, `last_non_zero_probability` and
`last_non_zero_probability_index` as explicit accumulators. -/
def sampleKrausLoop (data : ComplexVector) (den : ℚ) (qubits : List ℕ) (R u : ℚ) :
    List SquareMatrix → ℕ → ℚ → ℚ → ℕ → KrausLoopResult
  | [], _, summed, lastP, lastI => .fellThrough summed lastP lastI
  | K :: rest, i, summed, lastP, lastI =>
    match apply_kernel data K qubits with
    | .error e => .kernelErr e
    | .ok copy =>
      let ns := normSqV copy / den
      let p := ns / R
      let summed' := summed + p
      if TOLERANCE ≤ p then
        if u < summed' then .committed i ns copy
        else sampleKrausLoop data den qubits R u rest (i + 1) summed' p i
      else sampleKrausLoop data den qubits R u rest (i + 1) summed' lastP lastI

/-- Embeds `StateVector::sample_kraus_operators`.  `none` models the Rust
panic from the out-of-bounds indexing
`kraus_operators[last_non_zero_probability_index]` in the fallback. -/
def StateVector.sample_kraus_operators (st : StateVector)
    (kraus_operators : List SquareMatrix) (qubits : List ℕ)
    (renormalization_factor random_sample : ℚ) :
    Option (Except Error StateVector) :=
  match sampleKrausLoop st.data st.normDen qubits renormalization_factor random_sample
      kraus_operators 0 0 0 0 with
  | .kernelErr e => some (.error e)
  | .committed _ ns d =>
    some (StateVector.renormalize_with_norm_squared { st with data := d } ns)
  | .fellThrough summed lastP lastI =>
    if random_sample < summed + TOLERANCE ∧ TOLERANCE ≤ lastP then
      some (.error .failedToSampleKrausOperators)
    else
      match kraus_operators[lastI]? with
      | none => none
      | some K =>
        match apply_kernel st.data K qubits with
        | .error e => some (.error e)
        | .ok d => some (StateVector.renormalize { st with data := d })

/-- Modelled from the spec: the external `Operation` container (spec §3, §6) —
an effect matrix and an ordered list of Kraus operators. -/
structure Operation where
  effect_matrix : SquareMatrix
  kraus_operators : List SquareMatrix
deriving DecidableEq, Repr

/-- Entrywise sum of two square matrices. -/
def matAdd (a b : SquareMatrix) : SquareMatrix :=
  List.zipWith (List.zipWith (· + ·)) a b

/-- Modelled from the spec: the external `Instrument` container (spec §3, §6) —
an ordered collection of operations. -/
structure Instrument where
  operations : List Operation
deriving DecidableEq, Repr

/-- `Instrument::num_operations`. -/
def Instrument.num_operations (inst : Instrument) : ℕ := inst.operations.length

/-- `Instrument::operation(i)`; loops only call it in bounds. -/
def Instrument.operation (inst : Instrument) (i : ℕ) : Operation :=
  inst.operations.getD i ⟨[], []⟩

/-- Modelled from the spec: `Instrument::total_effect` is the sum of the
operations' effect matrices. -/
def Instrument.total_effect (inst : Instrument) : SquareMatrix :=
  match inst.operations with
  | [] => []
  | op :: rest => rest.foldl (fun acc o => matAdd acc o.effect_matrix) op.effect_matrix

/-- Modelled from the spec: `Instrument::non_selective_kraus_operators` is the
flattened list of Kraus operators across all outcomes. -/
def Instrument.non_selective_kraus_operators (inst : Instrument) : List SquareMatrix :=
  (inst.operations.map (·.kraus_operators)).flatten

/-- Embeds `StateVectorSimulator`: the state slot is `Ok` (healthy) or a
sticky `Err` (poisoned); `dim` is cached outside the slot. -/
structure StateVectorSimulator where
  state : Except Error StateVector
  dim : ℕ
deriving DecidableEq, Repr

/-- Embeds `StateVectorSimulator::new`. -/
def StateVectorSimulator.new (number_of_qubits : ℕ) : StateVectorSimulator :=
  { state := .ok (StateVector.new number_of_qubits)
    dim := (StateVector.new number_of_qubits).dim }

/-- Embeds `StateVectorSimulator::apply_operation`.  The uniform sample the
source draws from the ambient RNG (`rand::random()`) is passed explicitly, as
the spec's randomness-injection note (§9) requires.  `handle_error!` (crate
macro, modelled from the spec §7) stores the error in the state slot and
returns it. -/
def StateVectorSimulator.apply_operation (sim : StateVectorSimulator)
    (operation : Operation) (qubits : List ℕ) (random_sample : ℚ) :
    Option (StateVectorSimulator × Except Error Unit) :=
  match sim.state with
  | .error e => some (sim, .error e)
  | .ok st =>
    match st.effect_probability operation.effect_matrix qubits with
    | .error e => some (sim, .error e)
    | .ok renormalization_factor =>
      let st1 := { st with trace_change := st.trace_change * renormalization_factor }
      match st1.sample_kraus_operators operation.kraus_operators qubits
          renormalization_factor random_sample with
      | none => none
      | some (.error err) => some ({ sim with state := .error err }, .error err)
      | some (.ok st2) => some ({ sim with state := .ok st2 }, .ok ())

/-- Embeds `StateVectorSimulator::apply_instrument` (non-selective evolution):
identical to `apply_operation` with the instrument's total effect and
flattened Kraus list. -/
def StateVectorSimulator.apply_instrument (sim : StateVectorSimulator)
    (instrument : Instrument) (qubits : List ℕ) (random_sample : ℚ) :
    Option (StateVectorSimulator × Except Error Unit) :=
  match sim.state with
  | .error e => some (sim, .error e)
  | .ok st =>
    match st.effect_probability instrument.total_effect qubits with
    | .error e => some (sim, .error e)
    | .ok renormalization_factor =>
      let st1 := { st with trace_change := st.trace_change * renormalization_factor }
      match st1.sample_kraus_operators instrument.non_selective_kraus_operators qubits
          renormalization_factor random_sample with
      | none => none
      | some (.error err) => some ({ sim with state := .error err }, .error err)
      | some (.ok st2) => some ({ sim with state := .ok st2 }, .ok ())

/-- Embeds the `for outcome in 0..instrument.num_operations()` loop of
`sample_instrument_with_distribution`, with loop-carried `summed_probability`,
`last_non_zero_norm_squared` and `last_non_zero_outcome` as accumulators.
The first argument of the result triple is the final `summed_probability`. -/
def instrumentLoop (st : StateVector) (inst : Instrument) (qubits : List ℕ) (R u : ℚ) :
    ℕ → ℕ → ℚ → ℚ → ℕ → Except Error (ℚ × ℚ × ℕ)
  | 0, _, summed, lastS, lastO => .ok (summed, lastS, lastO)
  | rem + 1, o, summed, lastS, lastO =>
    match st.effect_probability (inst.operation o).effect_matrix qubits with
    | .error e => .error e
    | .ok s =>
      let p := s / R
      let lastS' := if TOLERANCE ≤ p then s else lastS
      let lastO' := if TOLERANCE ≤ p then o else lastO
      let summed' := summed + p
      if u < summed' then .ok (summed', lastS', lastO')
      else instrumentLoop st inst qubits R u rem (o + 1) summed' lastS' lastO'

/-- Embeds `StateVectorSimulator::sample_instrument_with_distribution`
(selective evolution / measurement). -/
def StateVectorSimulator.sample_instrument_with_distribution (sim : StateVectorSimulator)
    (instrument : Instrument) (qubits : List ℕ) (random_sample : ℚ) :
    Option (StateVectorSimulator × Except Error ℕ) :=
  match sim.state with
  | .error e => some (sim, .error e)
  | .ok st =>
    match st.effect_probability instrument.total_effect qubits with
    | .error e => some (sim, .error e)
    | .ok renormalization_factor =>
      match instrumentLoop st instrument qubits renormalization_factor random_sample
          instrument.num_operations 0 0 0 0 with
      | .error e => some (sim, .error e)
      | .ok (summed, lastS, lastO) =>
        if summed + TOLERANCE ≤ random_sample ∨ lastS < TOLERANCE then
          some ({ sim with state := .error .failedToSampleInstrumentOutcome },
                .error .failedToSampleInstrumentOutcome)
        else
          let st1 := { st with trace_change := st.trace_change * lastS }
          let rescaled := max ((summed - random_sample) / lastS * renormalization_factor) 0
          match st1.sample_kraus_operators (instrument.operation lastO).kraus_operators
              qubits lastS rescaled with
          | none => none
          | some (.error err) => some ({ sim with state := .error err }, .error err)
          | some (.ok st2) => some ({ sim with state := .ok st2 }, .ok lastO)

/-- Embeds `StateVectorSimulator::sample_instrument`; the source draws the
uniform sample from the ambient RNG, passed explicitly here. -/
def StateVectorSimulator.sample_instrument (sim : StateVectorSimulator)
    (instrument : Instrument) (qubits : List ℕ) (random_sample : ℚ) :
    Option (StateVectorSimulator × Except Error ℕ) :=
  sim.sample_instrument_with_distribution instrument qubits random_sample

/-- Embeds `StateVectorSimulator::set_state`: reject (leaving the slot
untouched) unless the dimension matches the cached `dim` and the new state is
normalized; on success replace the slot. -/
def StateVectorSimulator.set_state (sim : StateVectorSimulator) (new_state : StateVector) :
    StateVectorSimulator × Except Error Unit :=
  if sim.dim ≠ new_state.dim then (sim, .error .invalidState)
  else if ¬ new_state.is_normalized then (sim, .error .invalidState)
  else ({ sim with state := .ok new_state }, .ok ())

/-- Embeds `StateVectorSimulator::trace_change`. -/
def StateVectorSimulator.trace_change (sim : StateVectorSimulator) : Except Error ℚ :=
  match sim.state with
  | .error e => .error e
  | .ok st => .ok st.trace_change

/-- Embeds `StateVectorSimulator::set_trace`: reject with `NotNormalized`
unless `TOLERANCE ≤ trace ≤ 1 + TOLERANCE`; only then consult the state slot
and mutate only `trace_change`. -/
def StateVectorSimulator.set_trace (sim : StateVectorSimulator) (trace : ℚ) :
    StateVectorSimulator × Except Error Unit :=
  if trace < TOLERANCE ∨ TOLERANCE < trace - 1 then (sim, .error (.notNormalized trace))
  else match sim.state with
    | .error e => (sim, .error e)
    | .ok st => ({ sim with state := .ok { st with trace_change := trace } }, .ok ())

/-! ## Specification-side observables

Per-branch trial norms and the "last non-zero" record, used to state the
claims about `sample_kraus_operators` without re-running its loop. -/

/-- The squared norm of the trial state `Kᵢ ψ` of one Kraus branch (on
represented amplitudes), `none` if the kernel fails. -/
def trialNS (data : ComplexVector) (den : ℚ) (qubits : List ℕ) (K : SquareMatrix) :
    Option ℚ :=
  match apply_kernel data K qubits with
  | .error _ => none
  | .ok copy => some (normSqV copy / den)

/-- Trial norms of all branches in order, `none` if any kernel fails. -/
def trialNSs (data : ComplexVector) (den : ℚ) (qubits : List ℕ) :
    List SquareMatrix → Option (List ℚ)
  | [] => some []
  | K :: rest =>
    match trialNS data den qubits K, trialNSs data den qubits rest with
    | some s, some ss => some (s :: ss)
    | _, _ => none

/-- The `last_non_zero_probability` / `last_non_zero_probability_index` record
left by scanning the branch norms `ss` (probabilities `s / R`) starting at
index `i₀` from record `acc`: branches with probability `≥ TOLERANCE`
overwrite the record, the others leave it alone. -/
def lastNZ (R : ℚ) : ℕ → ℚ × ℕ → List ℚ → ℚ × ℕ
  | _, acc, [] => acc
  | i₀, acc, s :: rest =>
    lastNZ R (i₀ + 1) (if TOLERANCE ≤ s / R then (s / R, i₀) else acc) rest

theorem lastNZ_cases (R : ℚ) :
    ∀ (ss : List ℚ) (i₀ : ℕ) (acc : ℚ × ℕ),
      lastNZ R i₀ acc ss = acc ∨
      ∃ j, j < ss.length ∧ lastNZ R i₀ acc ss = (ss.getD j 0 / R, i₀ + j) ∧
        TOLERANCE ≤ ss.getD j 0 / R := by
  intro ss
  induction ss with
  | nil => intro i₀ acc; left; rfl
  | cons s rest ih =>
    intro i₀ acc
    by_cases hs : TOLERANCE ≤ s / R
    · rcases ih (i₀ + 1) (s / R, i₀) with h | ⟨j, hj, hr, hp⟩
      · right
        refine ⟨0, by simp, ?_, by simpa using hs⟩
        simpa [lastNZ, if_pos hs] using h
      · right
        refine ⟨j + 1, by simpa using hj, ?_, by simpa using hp⟩
        have hidx : i₀ + 1 + j = i₀ + (j + 1) := by omega
        simp only [lastNZ, if_pos hs, List.getD_cons_succ]
        rw [hr, hidx]
    · rcases ih (i₀ + 1) acc with h | ⟨j, hj, hr, hp⟩
      · left
        simpa [lastNZ, if_neg hs] using h
      · right
        refine ⟨j + 1, by simpa using hj, ?_, by simpa using hp⟩
        have hidx : i₀ + 1 + j = i₀ + (j + 1) := by omega
        simp only [lastNZ, if_neg hs, List.getD_cons_succ]
        rw [hr, hidx]

theorem sampleKrausLoop_committed_charac (data : ComplexVector) (den : ℚ)
    (qubits : List ℕ) (R u : ℚ) :
    ∀ (ks : List SquareMatrix) (i₀ : ℕ) (S lp : ℚ) (li : ℕ) (i : ℕ) (ns : ℚ)
      (d : ComplexVector),
      sampleKrausLoop data den qubits R u ks i₀ S lp li = .committed i ns d →
      ∃ k ss, k < ks.length ∧ i = i₀ + k ∧
        trialNSs data den qubits (ks.take (k + 1)) = some ss ∧
        ss.length = k + 1 ∧
        apply_kernel data (ks.getD k []) qubits = .ok d ∧
        ns = normSqV d / den ∧
        ns = ss.getD k 0 ∧
        TOLERANCE ≤ ns / R ∧
        u < S + (ss.map (fun s => s / R)).sum ∧
        ∀ j, j < k →
          ¬(TOLERANCE ≤ ss.getD j 0 / R ∧
            u < S + ((ss.take (j + 1)).map (fun s => s / R)).sum) := by
  intro ks
  induction ks with
  | nil => intro i₀ S lp li i ns d h; exact absurd h (by simp [sampleKrausLoop])
  | cons K rest ih =>
    intro i₀ S lp li i ns d h
    rw [sampleKrausLoop] at h
    cases happly : apply_kernel data K qubits with
    | error e => rw [happly] at h; exact absurd h (by simp)
    | ok copy =>
      rw [happly] at h
      simp only at h
      by_cases hp : TOLERANCE ≤ normSqV copy / den / R
      · rw [if_pos hp] at h
        by_cases hu : u < S + normSqV copy / den / R
        · rw [if_pos hu] at h
          injection h with hi hns hd
          subst hi; subst hns; subst hd
          refine ⟨0, [normSqV copy / den], by simp, by simp, ?_, by simp, by simpa,
            rfl, by simp, hp, by simpa using hu, by simp⟩
          simp [trialNSs, trialNS, happly]
        · rw [if_neg hu] at h
          obtain ⟨k, ss, hk, hi, hss, hlen, hker, hnd, hns, htol, hsum, hleast⟩ :=
            ih (i₀ + 1) (S + normSqV copy / den / R) (normSqV copy / den / R) i₀ i ns d h
          refine ⟨k + 1, normSqV copy / den :: ss, by simpa using hk, by omega, ?_,
            by simpa using hlen, by simpa using hker, hnd, by simpa using hns,
            htol, ?_, ?_⟩
          · simp only [List.take_succ_cons, trialNSs, trialNS, happly, hss]
          · simpa [add_assoc] using hsum
          · intro j hj
            cases j with
            | zero =>
              intro hc
              exact hu (by simpa using hc.2)
            | succ j' =>
              intro hc
              refine hleast j' (by omega) ⟨by simpa using hc.1, ?_⟩
              have := hc.2
              simpa [add_assoc] using this
      · rw [if_neg hp] at h
        obtain ⟨k, ss, hk, hi, hss, hlen, hker, hnd, hns, htol, hsum, hleast⟩ :=
          ih (i₀ + 1) (S + normSqV copy / den / R) lp li i ns d h
        refine ⟨k + 1, normSqV copy / den :: ss, by simpa using hk, by omega, ?_,
          by simpa using hlen, by simpa using hker, hnd, by simpa using hns,
          htol, ?_, ?_⟩
        · simp only [List.take_succ_cons, trialNSs, trialNS, happly, hss]
        · simpa [add_assoc] using hsum
        · intro j hj
          cases j with
          | zero =>
            intro hc
            exact hp (by simpa using hc.1)
          | succ j' =>
            intro hc
            refine hleast j' (by omega) ⟨by simpa using hc.1, ?_⟩
            have := hc.2
            simpa [add_assoc] using this

theorem sampleKrausLoop_fellThrough_charac (data : ComplexVector) (den : ℚ)
    (qubits : List ℕ) (R u : ℚ) :
    ∀ (ks : List SquareMatrix) (i₀ : ℕ) (S lp : ℚ) (li : ℕ) (S' lp' : ℚ) (li' : ℕ),
      sampleKrausLoop data den qubits R u ks i₀ S lp li = .fellThrough S' lp' li' →
      ∃ ss, trialNSs data den qubits ks = some ss ∧
        ss.length = ks.length ∧
        S' = S + (ss.map (fun s => s / R)).sum ∧
        (lp', li') = lastNZ R i₀ (lp, li) ss ∧
        ∀ j, j < ks.length → TOLERANCE ≤ ss.getD j 0 / R →
          S + ((ss.take (j + 1)).map (fun s => s / R)).sum ≤ u := by
  intro ks
  induction ks with
  | nil =>
    intro i₀ S lp li S' lp' li' h
    rw [sampleKrausLoop] at h
    injection h with h1 h2 h3
    subst h1; subst h2; subst h3
    exact ⟨[], rfl, rfl, by simp, rfl, by simp⟩
  | cons K rest ih =>
    intro i₀ S lp li S' lp' li' h
    rw [sampleKrausLoop] at h
    cases happly : apply_kernel data K qubits with
    | error e => rw [happly] at h; exact absurd h (by simp)
    | ok copy =>
      rw [happly] at h
      simp only at h
      by_cases hp : TOLERANCE ≤ normSqV copy / den / R
      · rw [if_pos hp] at h
        by_cases hu : u < S + normSqV copy / den / R
        · rw [if_pos hu] at h; exact absurd h (by simp)
        · rw [if_neg hu] at h
          obtain ⟨ss, hss, hlen, hS, hrec, hnc⟩ :=
            ih (i₀ + 1) (S + normSqV copy / den / R) (normSqV copy / den / R) i₀
              S' lp' li' h
          refine ⟨normSqV copy / den :: ss, ?_, by simpa using hlen, ?_, ?_, ?_⟩
          · simp only [trialNSs, trialNS, happly, hss]
          · simpa [add_assoc] using hS
          · simpa [lastNZ, if_pos hp] using hrec
          · intro j hj htol
            cases j with
            | zero => simpa using not_lt.mp hu
            | succ j' =>
              have := hnc j' (by simpa using hj) (by simpa using htol)
              simpa [add_assoc] using this
      · rw [if_neg hp] at h
        obtain ⟨ss, hss, hlen, hS, hrec, hnc⟩ :=
          ih (i₀ + 1) (S + normSqV copy / den / R) lp li S' lp' li' h
        refine ⟨normSqV copy / den :: ss, ?_, by simpa using hlen, ?_, ?_, ?_⟩
        · simp only [trialNSs, trialNS, happly, hss]
        · simpa [add_assoc] using hS
        · simpa [lastNZ, if_neg hp] using hrec
        · intro j hj htol
          cases j with
          | zero => exact absurd (by simpa using htol) hp
          | succ j' =>
            have := hnc j' (by simpa using hj) (by simpa using htol)
            simpa [add_assoc] using this

theorem sampleKrausLoop_not_kernelErr (data : ComplexVector) (den : ℚ)
    (qubits : List ℕ) (R u : ℚ) :
    ∀ (ks : List SquareMatrix) (ss : List ℚ) (i₀ : ℕ) (S lp : ℚ) (li : ℕ) (e : Error),
      trialNSs data den qubits ks = some ss →
      sampleKrausLoop data den qubits R u ks i₀ S lp li ≠ .kernelErr e := by
  intro ks
  induction ks with
  | nil =>
    intro ss i₀ S lp li e _ h
    rw [sampleKrausLoop] at h
    exact absurd h (by simp)
  | cons K rest ih =>
    intro ss i₀ S lp li e hss h
    rw [sampleKrausLoop] at h
    cases happly : apply_kernel data K qubits with
    | error e' =>
      rw [trialNSs] at hss
      rw [trialNS, happly] at hss
      exact absurd hss (by simp)
    | ok copy =>
      rw [happly] at h
      simp only at h
      rw [trialNSs] at hss
      rw [trialNS, happly] at hss
      simp only at hss
      cases hrest : trialNSs data den qubits rest with
      | none => rw [hrest] at hss; exact absurd hss (by simp)
      | some ss' =>
        by_cases hp : TOLERANCE ≤ normSqV copy / den / R
        · rw [if_pos hp] at h
          by_cases hu : u < S + normSqV copy / den / R
          · rw [if_pos hu] at h; exact absurd h (by simp)
          · rw [if_neg hu] at h
            exact ih ss' (i₀ + 1) (S + normSqV copy / den / R) (normSqV copy / den / R)
              i₀ e hrest h
        · rw [if_neg hp] at h
          exact ih ss' (i₀ + 1) (S + normSqV copy / den / R) lp li e hrest h

theorem apply_kernel_error_kind (state : ComplexVector) (matrix : SquareMatrix)
    (qubits : List ℕ) (e : Error) (h : apply_kernel state matrix qubits = .error e) :
    e = .kernelError := by
  rw [apply_kernel] at h
  split at h
  · cases h; rfl
  · exact absurd h (by simp)

theorem renormalize_with_norm_squared_error_kind (st : StateVector) (ns : ℚ) (e : Error)
    (h : st.renormalize_with_norm_squared ns = .error e) : e = .probabilityZeroEvent := by
  rw [StateVector.renormalize_with_norm_squared] at h
  split at h
  · cases h; rfl
  · exact absurd h (by simp)

theorem renormalize_error_kind (st : StateVector) (e : Error)
    (h : st.renormalize = .error e) : e = .probabilityZeroEvent :=
  renormalize_with_norm_squared_error_kind st st.norm_squared e
    (by rwa [StateVector.renormalize] at h)

theorem normSqV_nonneg (v : ComplexVector) : 0 ≤ normSqV v := by
  refine List.sum_nonneg ?_
  intro x hx
  simp only [List.mem_map] at hx
  obtain ⟨a, _, rfl⟩ := hx
  unfold Cq.normSq
  exact add_nonneg (mul_self_nonneg _) (mul_self_nonneg _)

theorem TOLERANCE_pos : (0 : ℚ) < TOLERANCE := by norm_num [TOLERANCE]

theorem trialNSs_length (data : ComplexVector) (den : ℚ) (qubits : List ℕ) :
    ∀ (ks : List SquareMatrix) (ss : List ℚ),
      trialNSs data den qubits ks = some ss → ss.length = ks.length := by
  intro ks
  induction ks with
  | nil => intro ss h; rw [trialNSs] at h; cases h; rfl
  | cons K rest ih =>
    intro ss h
    rw [trialNSs] at h
    cases hK : trialNS data den qubits K with
    | none => rw [hK] at h; exact absurd h (by simp)
    | some s =>
      cases hrest : trialNSs data den qubits rest with
      | none => rw [hK, hrest] at h; exact absurd h (by simp)
      | some ss' =>
        rw [hK, hrest] at h
        simp only [Option.some.injEq] at h
        subst h
        simpa using ih ss' hrest

theorem trialNSs_getD (data : ComplexVector) (den : ℚ) (qubits : List ℕ) :
    ∀ (ks : List SquareMatrix) (ss : List ℚ),
      trialNSs data den qubits ks = some ss →
      ∀ j, j < ks.length → trialNS data den qubits (ks.getD j []) = some (ss.getD j 0) := by
  intro ks
  induction ks with
  | nil => intro ss _ j hj; exact absurd hj (by simp)
  | cons K rest ih =>
    intro ss h j hj
    rw [trialNSs] at h
    cases hK : trialNS data den qubits K with
    | none => rw [hK] at h; exact absurd h (by simp)
    | some s =>
      cases hrest : trialNSs data den qubits rest with
      | none => rw [hK, hrest] at h; exact absurd h (by simp)
      | some ss' =>
        rw [hK, hrest] at h
        simp only [Option.some.injEq] at h
        subst h
        cases j with
        | zero => simpa using hK
        | succ j' => simpa using ih ss' hrest j' (by simpa using hj)

theorem trialNSs_elem_nonneg (data : ComplexVector) (den : ℚ) (hden : 0 < den)
    (qubits : List ℕ) :
    ∀ (ks : List SquareMatrix) (ss : List ℚ),
      trialNSs data den qubits ks = some ss → ∀ x ∈ ss, 0 ≤ x := by
  intro ks
  induction ks with
  | nil => intro ss h x hx; rw [trialNSs] at h; cases h; exact absurd hx (by simp)
  | cons K rest ih =>
    intro ss h x hx
    rw [trialNSs] at h
    cases hK : trialNS data den qubits K with
    | none => rw [hK] at h; exact absurd h (by simp)
    | some s =>
      cases hrest : trialNSs data den qubits rest with
      | none => rw [hK, hrest] at h; exact absurd h (by simp)
      | some ss' =>
        rw [hK, hrest] at h
        simp only [Option.some.injEq] at h
        subst h
        rcases List.mem_cons.mp hx with rfl | hx'
        · rw [trialNS] at hK
          cases happly : apply_kernel data K qubits with
          | error e => rw [happly] at hK; exact absurd hK (by simp)
          | ok copy =>
            rw [happly] at hK
            simp only [Option.some.injEq] at hK
            subst hK
            exact div_nonneg (normSqV_nonneg copy) hden.le
        · exact ih ss' hrest x hx'

theorem renormalize_with_norm_squared_norm_one (st : StateVector) (st' : StateVector)
    (h : st.renormalize_with_norm_squared st.norm_squared = .ok st') :
    st'.norm_squared = 1 := by
  rw [StateVector.renormalize_with_norm_squared] at h
  split at h
  · exact absurd h (by simp)
  · rename_i hns
    push_neg at hns
    have hpos : 0 < st.norm_squared := lt_of_lt_of_le TOLERANCE_pos hns
    simp only [Except.ok.injEq] at h
    subst h
    rw [StateVector.norm_squared] at hpos ⊢
    have hden : st.normDen ≠ 0 := by
      intro h0
      rw [h0, div_zero] at hpos
      exact lt_irrefl 0 hpos
    have hN : normSqV st.data ≠ 0 := by
      intro h0
      rw [h0, zero_div] at hpos
      exact lt_irrefl 0 hpos
    simp only []
    rw [StateVector.norm_squared]
    have : st.normDen * (normSqV st.data / st.normDen) = normSqV st.data := by
      field_simp
    rw [this]
    exact div_self hN

theorem renormalize_norm_one (st : StateVector) (st' : StateVector)
    (h : st.renormalize = .ok st') : st'.norm_squared = 1 :=
  renormalize_with_norm_squared_norm_one st st' (by rwa [StateVector.renormalize] at h)

/-- Every branch of `sample_kraus_operators` leaves `trace_change`, `dim` and
`number_of_qubits` untouched (it only rewrites `data` and renormalizes). -/
theorem sample_kraus_operators_fields (st : StateVector) (ks : List SquareMatrix)
    (qubits : List ℕ) (R u : ℚ) (st' : StateVector)
    (h : st.sample_kraus_operators ks qubits R u = some (.ok st')) :
    st'.trace_change = st.trace_change ∧ st'.dim = st.dim ∧
      st'.number_of_qubits = st.number_of_qubits := by
  rw [StateVector.sample_kraus_operators] at h
  cases hloop : sampleKrausLoop st.data st.normDen qubits R u ks 0 0 0 0 with
  | kernelErr e => rw [hloop] at h; exact absurd h (by simp)
  | committed i ns d =>
    rw [hloop] at h
    simp only [Option.some.injEq] at h
    rw [StateVector.renormalize_with_norm_squared] at h
    split at h
    · exact absurd h (by simp)
    · simp only [Except.ok.injEq] at h
      subst h
      exact ⟨rfl, rfl, rfl⟩
  | fellThrough S lp li =>
    rw [hloop] at h
    simp only at h
    split at h
    · exact absurd h (by simp)
    · cases hidx : ks[li]? with
      | none => rw [hidx] at h; exact absurd h (by simp)
      | some K =>
        rw [hidx] at h
        simp only at h
        cases hker : apply_kernel st.data K qubits with
        | error e => rw [hker] at h; exact absurd h (by simp)
        | ok d =>
          rw [hker] at h
          simp only [Option.some.injEq] at h
          rw [StateVector.renormalize, StateVector.renormalize_with_norm_squared] at h
          split at h
          · exact absurd h (by simp)
          · simp only [Except.ok.injEq] at h
            subst h
            exact ⟨rfl, rfl, rfl⟩

/-- C1.  When a branch of `sample_kraus_operators` commits, it is the earliest
branch `i` whose probability is at least `TOLERANCE` and whose cumulative
probability (counting sub-`TOLERANCE` branches in the sum) strictly exceeds
the random sample; the committed trial state replaces `data` and is
renormalized with its precomputed squared norm.  Moreover a branch whose
probability is below `TOLERANCE` neither commits nor updates the
last-non-zero record (second conjunct: it merely adds its probability to the
running sum and recurses). -/
theorem c1_commit_earliest_branch (st : StateVector) (ks : List SquareMatrix)
    (qs : List ℕ) (R u : ℚ) :
    (∀ (i : ℕ) (ns : ℚ) (d : ComplexVector),
      sampleKrausLoop st.data st.normDen qs R u ks 0 0 0 0 = .committed i ns d →
      st.sample_kraus_operators ks qs R u =
        some (StateVector.renormalize_with_norm_squared { st with data := d } ns) ∧
      i < ks.length ∧
      apply_kernel st.data (ks.getD i []) qs = .ok d ∧
      ns = normSqV d / st.normDen ∧
      ∃ ss, trialNSs st.data st.normDen qs (ks.take (i + 1)) = some ss ∧
        ss.length = i + 1 ∧
        ns = ss.getD i 0 ∧
        TOLERANCE ≤ ns / R ∧
        u < (ss.map (fun s => s / R)).sum ∧
        ∀ j, j < i →
          ¬(TOLERANCE ≤ ss.getD j 0 / R ∧
            u < ((ss.take (j + 1)).map (fun s => s / R)).sum)) ∧
    (∀ (K : SquareMatrix) (rest : List SquareMatrix) (i₀ : ℕ) (S lp : ℚ) (li : ℕ)
      (ns' : ℚ),
      trialNS st.data st.normDen qs K = some ns' → ns' / R < TOLERANCE →
      sampleKrausLoop st.data st.normDen qs R u (K :: rest) i₀ S lp li =
        sampleKrausLoop st.data st.normDen qs R u rest (i₀ + 1) (S + ns' / R) lp li) := by
  constructor
  · intro i ns d h
    obtain ⟨k, ss, hk, hi, hss, hlen, hker, hnd, hns, htol, hsum, hleast⟩ :=
      sampleKrausLoop_committed_charac st.data st.normDen qs R u ks 0 0 0 0 i ns d h
    rw [Nat.zero_add] at hi
    subst hi
    refine ⟨?_, hk, hker, hnd, ss, hss, hlen, hns, htol, by simpa using hsum, ?_⟩
    · rw [StateVector.sample_kraus_operators, h]
    · intro j hj hc
      exact hleast j hj ⟨hc.1, by simpa using hc.2⟩
  · intro K rest i₀ S lp li ns' htr hlt
    rw [trialNS] at htr
    cases happly : apply_kernel st.data K qs with
    | error e => rw [happly] at htr; exact absurd htr (by simp)
    | ok copy =>
      rw [happly] at htr
      simp only [Option.some.injEq] at htr
      subst htr
      rw [sampleKrausLoop, happly]
      simp only []
      rw [if_neg (not_le.mpr hlt)]

/-- C2.  When the Kraus loop runs to completion without committing, the
function fails with `FailedToSampleKrausOperators` exactly when
`summed + TOLERANCE > u` and the recorded last non-zero probability is at
least `TOLERANCE`; otherwise it indexes `kraus_operators` at the recorded
index (which is `0` when no branch ever reached `TOLERANCE`), applies that
operator to `data` and renormalizes with a freshly recomputed norm, so a
state it returns successfully has squared norm exactly `1`. -/
theorem c2_kraus_fallthrough (st : StateVector) (ks : List SquareMatrix)
    (qs : List ℕ) (R u : ℚ) (S lp : ℚ) (li : ℕ)
    (h : sampleKrausLoop st.data st.normDen qs R u ks 0 0 0 0 = .fellThrough S lp li) :
    (st.sample_kraus_operators ks qs R u =
        some (.error .failedToSampleKrausOperators) ↔
      (u < S + TOLERANCE ∧ TOLERANCE ≤ lp)) ∧
    (lp < TOLERANCE → lp = 0 ∧ li = 0) ∧
    (¬(u < S + TOLERANCE ∧ TOLERANCE ≤ lp) →
      st.sample_kraus_operators ks qs R u =
        (match ks[li]? with
         | none => none
         | some K =>
           match apply_kernel st.data K qs with
           | .error e => some (.error e)
           | .ok d => some (StateVector.renormalize { st with data := d }))) ∧
    (∀ st', st.sample_kraus_operators ks qs R u = some (.ok st') →
      st'.norm_squared = 1) := by
  have hrec := sampleKrausLoop_fellThrough_charac st.data st.normDen qs R u ks 0 0 0 0
    S lp li h
  obtain ⟨ss, _, _, _, hlz, _⟩ := hrec
  have hfun : st.sample_kraus_operators ks qs R u =
      (if u < S + TOLERANCE ∧ TOLERANCE ≤ lp then
        some (.error .failedToSampleKrausOperators)
      else
        (match ks[li]? with
         | none => none
         | some K =>
           match apply_kernel st.data K qs with
           | .error e => some (.error e)
           | .ok d => some (StateVector.renormalize { st with data := d }))) := by
    rw [StateVector.sample_kraus_operators, h]
  refine ⟨?_, ?_, ?_, ?_⟩
  · constructor
    · intro heq
      by_contra hguard
      rw [hfun, if_neg hguard] at heq
      cases hidx : ks[li]? with
      | none => rw [hidx] at heq; exact absurd heq (by simp)
      | some K =>
        rw [hidx] at heq
        simp only at heq
        cases hker : apply_kernel st.data K qs with
        | error e =>
          rw [hker] at heq
          simp only [Option.some.injEq, Except.error.injEq] at heq
          have hk := apply_kernel_error_kind _ _ _ _ hker
          rw [heq] at hk
          exact Error.noConfusion hk
        | ok d =>
          rw [hker] at heq
          simp only at heq
          cases hren : StateVector.renormalize { st with data := d } with
          | error e' =>
            rw [hren] at heq
            simp only [Option.some.injEq, Except.error.injEq] at heq
            have hk := renormalize_error_kind _ _ hren
            rw [heq] at hk
            exact Error.noConfusion hk
          | ok st2 => rw [hren] at heq; exact absurd heq (by simp)
    · intro hguard
      rw [hfun, if_pos hguard]
  · intro hlp
    rcases lastNZ_cases R ss 0 (0, 0) with hcase | ⟨j, _, hcase, hge⟩
    · rw [hcase] at hlz
      exact ⟨congrArg Prod.fst hlz, congrArg Prod.snd hlz⟩
    · rw [hcase] at hlz
      have : lp = ss.getD j 0 / R := congrArg Prod.fst hlz
      rw [this] at hlp
      exact absurd hge (not_le.mpr hlp)
  · intro hguard
    rw [hfun, if_neg hguard]
  · intro st' heq
    rw [hfun] at heq
    split at heq
    · exact absurd heq (by simp)
    · cases hidx : ks[li]? with
      | none => rw [hidx] at heq; exact absurd heq (by simp)
      | some K =>
        rw [hidx] at heq
        simp only at heq
        cases hker : apply_kernel st.data K qs with
        | error e => rw [hker] at heq; exact absurd heq (by simp)
        | ok d =>
          rw [hker] at heq
          simp only [Option.some.injEq] at heq
          exact renormalize_norm_one _ st' heq

/-- C9.  `sample_kraus_operators` reaches the Rust panic (out-of-bounds
indexing of the Kraus list in the fallback, modelled by `none`) exactly when
the Kraus list is empty: with no branches the loop falls through with the
last-non-zero record still `(0, 0)`, the `FailedToSampleKrausOperators` guard
cannot fire (`0 < TOLERANCE`), and the fallback indexes `kraus_operators[0]`
of an empty list; with a non-empty list the recorded index is always in
bounds, so the function returns `some` (a value or a simulator error). -/
theorem c9_empty_kraus_list_panics (st : StateVector) (qs : List ℕ) (R u : ℚ) :
    (sampleKrausLoop st.data st.normDen qs R u [] 0 0 0 0 = .fellThrough 0 0 0) ∧
    ∀ ks : List SquareMatrix,
      st.sample_kraus_operators ks qs R u = none ↔ ks = [] := by
  refine ⟨rfl, ?_⟩
  intro ks
  constructor
  · intro hnone
    by_contra hne
    rw [StateVector.sample_kraus_operators] at hnone
    cases hloop : sampleKrausLoop st.data st.normDen qs R u ks 0 0 0 0 with
    | kernelErr e => rw [hloop] at hnone; exact absurd hnone (by simp)
    | committed i ns d =>
      rw [hloop] at hnone
      simp only at hnone
      rw [StateVector.renormalize_with_norm_squared] at hnone
      split at hnone <;> simp at hnone
    | fellThrough S lp li =>
      rw [hloop] at hnone
      simp only at hnone
      split at hnone
      · exact absurd hnone (by simp)
      · obtain ⟨ss, _, hlen, _, hlz, _⟩ :=
          sampleKrausLoop_fellThrough_charac st.data st.normDen qs R u ks 0 0 0 0
            S lp li hloop
        have hli : li < ks.length := by
          rcases lastNZ_cases R ss 0 (0, 0) with hcase | ⟨j, hj, hcase, _⟩
          · rw [hcase] at hlz
            have : li = 0 := congrArg Prod.snd hlz
            subst this
            exact List.length_pos.mpr hne
          · rw [hcase] at hlz
            have : li = 0 + j := congrArg Prod.snd hlz
            subst this
            rw [hlen] at hj
            omega
        rw [List.getElem?_eq_getElem hli] at hnone
        simp only at hnone
        cases hker : apply_kernel st.data (ks[li]) qs with
        | error e => rw [hker] at hnone; exact absurd hnone (by simp)
        | ok d =>
          rw [hker] at hnone
          simp only at hnone
          exact absurd hnone (by simp)
  · intro hks
    subst hks
    rw [StateVector.sample_kraus_operators]
    have hguard : ¬(u < (0 : ℚ) + TOLERANCE ∧ TOLERANCE ≤ (0 : ℚ)) :=
      fun hc => absurd hc.2 (not_le.mpr TOLERANCE_pos)
    simp only [sampleKrausLoop]
    rw [if_neg hguard]
    rfl

/-- C10.  `StateVector::new(n)` allocates an amplitude buffer of length
`2^n = dim`, while `try_from` demands length `dim * dim`; hence feeding a
fresh state's own data back through the interop constructor fails for every
`n ≥ 1` and succeeds only for `n = 0` (where `dim = dim * dim = 1`). -/
theorem c10_try_from_new_roundtrip :
    (∀ (n : ℕ) (t : ℚ), 1 ≤ n →
      StateVector.try_from (2 ^ n) n t (StateVector.new n).data = none) ∧
    (∀ t : ℚ, (StateVector.try_from (2 ^ 0) 0 t (StateVector.new 0).data).isSome) := by
  constructor
  · intro n t hn
    rw [StateVector.try_from, if_pos]
    right
    have hlen : (StateVector.new n).data.length = 2 ^ n := by
      rw [StateVector.new]
      simp
    rw [hlen]
    intro hcontra
    have h1 : 1 < 2 ^ n := Nat.one_lt_two_pow (by omega)
    nlinarith [hcontra, h1]
  · intro t
    rw [StateVector.try_from, if_neg]
    · rfl
    · push_neg
      constructor
      · rfl
      · rw [StateVector.new]
        simp

/-! ## Concrete fixtures

Small single-qubit matrices and instruments used to instantiate the theorems
on concrete inputs. -/

/-- Pauli X. -/
def matX : SquareMatrix := [[⟨0, 0⟩, ⟨1, 0⟩], [⟨1, 0⟩, ⟨0, 0⟩]]

/-- 2×2 identity. -/
def matI2 : SquareMatrix := [[⟨1, 0⟩, ⟨0, 0⟩], [⟨0, 0⟩, ⟨1, 0⟩]]

/-- Projector onto `|0⟩`. -/
def matP0 : SquareMatrix := [[⟨1, 0⟩, ⟨0, 0⟩], [⟨0, 0⟩, ⟨0, 0⟩]]

/-- Projector onto `|1⟩`. -/
def matP1 : SquareMatrix := [[⟨0, 0⟩, ⟨0, 0⟩], [⟨0, 0⟩, ⟨1, 0⟩]]

/-- 2×2 zero matrix. -/
def matZero2 : SquareMatrix := [[⟨0, 0⟩, ⟨0, 0⟩], [⟨0, 0⟩, ⟨0, 0⟩]]

/-- The computational-basis measurement instrument on one qubit
(`P0`/`P1` projectors, each its own single Kraus operator). -/
def zInstrument : Instrument := ⟨[⟨matP0, [matP0]⟩, ⟨matP1, [matP1]⟩]⟩

theorem c1_commit_earliest_branch_witness :
    (StateVector.new 1).sample_kraus_operators [matX] [0] 1 0 =
      some (StateVector.renormalize_with_norm_squared
        { StateVector.new 1 with data := [⟨0, 0⟩, ⟨1, 0⟩] } 1) ∧
    0 < ([matX] : List SquareMatrix).length ∧
    sampleKrausLoop (StateVector.new 1).data (StateVector.new 1).normDen [0] 1 1
        [matZero2] 0 0 0 0 =
      sampleKrausLoop (StateVector.new 1).data (StateVector.new 1).normDen [0] 1 1
        [] (0 + 1) (0 + 0 / 1) 0 0 := by
  have h := (c1_commit_earliest_branch (StateVector.new 1) [matX] [0] 1 0).1
    0 1 [⟨0, 0⟩, ⟨1, 0⟩] (by with_unfolding_all rfl)
  have h2 := (c1_commit_earliest_branch (StateVector.new 1) [matX] [0] 1 1).2
    matZero2 [] 0 0 0 0 0 (by with_unfolding_all rfl) (by norm_num [TOLERANCE])
  exact ⟨h.1, h.2.1, h2⟩

theorem c2_kraus_fallthrough_witness :
    ((StateVector.new 1).sample_kraus_operators [matI2] [0] 1000000000000000 0 =
        some (.error .failedToSampleKrausOperators) ↔
      ((0 : ℚ) < 1 / 1000000000000000 + TOLERANCE ∧ TOLERANCE ≤ (0 : ℚ))) ∧
    (StateVector.mk 2 1 1 [⟨1, 0⟩, ⟨0, 0⟩] 1).norm_squared = 1 := by
  have h := c2_kraus_fallthrough (StateVector.new 1) [matI2] [0] 1000000000000000 0
    (1 / 1000000000000000) 0 0 (by with_unfolding_all rfl)
  exact ⟨h.1, h.2.2.2 (StateVector.mk 2 1 1 [⟨1, 0⟩, ⟨0, 0⟩] 1) (by with_unfolding_all rfl)⟩

theorem c10_try_from_new_roundtrip_witness :
    StateVector.try_from (2 ^ 1) 1 (5 / 7) (StateVector.new 1).data = none ∧
    (StateVector.try_from (2 ^ 0) 0 (5 / 7) (StateVector.new 0).data).isSome :=
  ⟨c10_try_from_new_roundtrip.1 1 (5 / 7) (by norm_num),
   c10_try_from_new_roundtrip.2 (5 / 7)⟩

/-- C7.  `set_state` rejects with `InvalidState` — leaving the simulator, in
particular its state slot, completely unchanged — unless the new state's
dimension equals the cached `dim` and the new state is normalized within
`TOLERANCE`; when both hold it replaces the state slot (un-poisoning a
poisoned simulator, since the check uses only the cached `dim`). -/
theorem c7_set_state_validation (sim : StateVectorSimulator) (new_state : StateVector) :
    ((sim.dim ≠ new_state.dim ∨ ¬ new_state.is_normalized) →
      sim.set_state new_state = (sim, .error .invalidState)) ∧
    (sim.dim = new_state.dim → new_state.is_normalized →
      sim.set_state new_state = ({ sim with state := .ok new_state }, .ok ())) := by
  constructor
  · intro h
    rw [StateVectorSimulator.set_state]
    rcases h with h | h
    · rw [if_pos h]
    · by_cases hd : sim.dim ≠ new_state.dim
      · rw [if_pos hd]
      · rw [if_neg hd, if_pos h]
  · intro h1 h2
    rw [StateVectorSimulator.set_state, if_neg (fun hc => hc h1),
      if_neg (not_not_intro h2)]

theorem c7_set_state_validation_witness :
    (StateVectorSimulator.new 1).set_state (StateVector.new 2) =
      (StateVectorSimulator.new 1, .error .invalidState) ∧
    (StateVectorSimulator.mk (.error .probabilityZeroEvent) 2).set_state
        (StateVector.new 1) =
      (StateVectorSimulator.mk (.ok (StateVector.new 1)) 2, .ok ()) := by
  refine ⟨(c7_set_state_validation (StateVectorSimulator.new 1) (StateVector.new 2)).1
    (Or.inl (by norm_num [StateVectorSimulator.new, StateVector.new])), ?_⟩
  exact (c7_set_state_validation
      (StateVectorSimulator.mk (.error .probabilityZeroEvent) 2) (StateVector.new 1)).2
    rfl (of_decide_eq_true (by with_unfolding_all rfl))

/-- C5 (amended).  Once the simulator is poisoned (the state slot holds an
error `e`), every subsequent state-dependent call that reaches the slot
returns that same error and leaves the simulator unchanged — except
`set_trace` with an out-of-range argument, whose validation error
`NotNormalized` fires before the slot is consulted — and a `set_state` that
passes validation replaces the slot, un-poisoning the simulator. -/
theorem c5_poisoning_sticky (sim : StateVectorSimulator) (e : Error)
    (h : sim.state = .error e) :
    (∀ op qs u, sim.apply_operation op qs u = some (sim, .error e)) ∧
    (∀ inst qs u, sim.apply_instrument inst qs u = some (sim, .error e)) ∧
    (∀ inst qs u, sim.sample_instrument_with_distribution inst qs u =
      some (sim, .error e)) ∧
    (∀ inst qs u, sim.sample_instrument inst qs u = some (sim, .error e)) ∧
    sim.trace_change = .error e ∧
    (∀ t, ¬(t < TOLERANCE ∨ TOLERANCE < t - 1) → sim.set_trace t = (sim, .error e)) ∧
    (∀ t, (t < TOLERANCE ∨ TOLERANCE < t - 1) →
      sim.set_trace t = (sim, .error (.notNormalized t))) ∧
    (∀ new_state, sim.dim = new_state.dim → new_state.is_normalized →
      sim.set_state new_state = ({ sim with state := .ok new_state }, .ok ())) := by
  refine ⟨?_, ?_, ?_, ?_, ?_, ?_, ?_, ?_⟩
  · intro op qs u; rw [StateVectorSimulator.apply_operation, h]
  · intro inst qs u; rw [StateVectorSimulator.apply_instrument, h]
  · intro inst qs u; rw [StateVectorSimulator.sample_instrument_with_distribution, h]
  · intro inst qs u
    rw [StateVectorSimulator.sample_instrument,
      StateVectorSimulator.sample_instrument_with_distribution, h]
  · rw [StateVectorSimulator.trace_change, h]
  · intro t ht; rw [StateVectorSimulator.set_trace, if_neg ht, h]
  · intro t ht; rw [StateVectorSimulator.set_trace, if_pos ht]
  · intro new_state h1 h2
    exact (c7_set_state_validation sim new_state).2 h1 h2

/-- C5 counterexample.  The claim says that once *any* call returns `Err(e)`,
every subsequent state-dependent call returns the same error kind.  But a
kernel error raised while computing the effect probability is returned
*without* poisoning: immediately afterwards `trace_change()` still succeeds
with `Ok 1`. -/
theorem c5_counterexample :
    (StateVectorSimulator.new 1).apply_operation ⟨matI2, [matX]⟩ [1] 0 =
      some (StateVectorSimulator.new 1, .error .kernelError) ∧
    (StateVectorSimulator.new 1).trace_change = .ok 1 :=
  ⟨by with_unfolding_all rfl, by with_unfolding_all rfl⟩

theorem c5_poisoning_sticky_witness :
    (StateVectorSimulator.mk (.error .probabilityZeroEvent) 2).apply_operation
        ⟨matI2, [matX]⟩ [0] 0 =
      some (StateVectorSimulator.mk (.error .probabilityZeroEvent) 2,
            .error .probabilityZeroEvent) ∧
    (StateVectorSimulator.mk (.error .probabilityZeroEvent) 2).trace_change =
      .error .probabilityZeroEvent ∧
    (StateVectorSimulator.mk (.error .probabilityZeroEvent) 2).set_trace (1 / 2) =
      (StateVectorSimulator.mk (.error .probabilityZeroEvent) 2,
       .error .probabilityZeroEvent) ∧
    (StateVectorSimulator.mk (.error .probabilityZeroEvent) 2).set_trace 5 =
      (StateVectorSimulator.mk (.error .probabilityZeroEvent) 2,
       .error (.notNormalized 5)) := by
  have h := c5_poisoning_sticky (StateVectorSimulator.mk (.error .probabilityZeroEvent) 2)
    .probabilityZeroEvent rfl
  exact ⟨h.1 ⟨matI2, [matX]⟩ [0] 0, h.2.2.2.2.1,
    h.2.2.2.2.2.1 (1 / 2) (by norm_num [TOLERANCE]),
    h.2.2.2.2.2.2.1 5 (by norm_num [TOLERANCE])⟩

/-- C4 (amended).  During `apply_operation`, `apply_instrument` and
`sample_instrument_with_distribution`, any failure of the Kraus sampling step
— and, for the selective path, of the outcome guard — stores the error in the
state slot (poisoning) and returns it.  However a kernel error raised while
computing an effect probability is returned *without* poisoning: the
simulator is left unchanged (last two conjuncts), correcting the claim's
"this includes kernel errors raised while computing the effect
probability". -/
theorem c4_poisoning_on_sampling_failure :
    (∀ (sim : StateVectorSimulator) (st : StateVector) (op : Operation)
      (qs : List ℕ) (u R : ℚ) (err : Error),
      sim.state = .ok st →
      st.effect_probability op.effect_matrix qs = .ok R →
      StateVector.sample_kraus_operators
        { st with trace_change := st.trace_change * R } op.kraus_operators qs R u =
        some (.error err) →
      sim.apply_operation op qs u = some ({ sim with state := .error err }, .error err)) ∧
    (∀ (sim : StateVectorSimulator) (st : StateVector) (inst : Instrument)
      (qs : List ℕ) (u R : ℚ) (err : Error),
      sim.state = .ok st →
      st.effect_probability inst.total_effect qs = .ok R →
      StateVector.sample_kraus_operators
        { st with trace_change := st.trace_change * R }
        inst.non_selective_kraus_operators qs R u = some (.error err) →
      sim.apply_instrument inst qs u =
        some ({ sim with state := .error err }, .error err)) ∧
    (∀ (sim : StateVectorSimulator) (st : StateVector) (inst : Instrument)
      (qs : List ℕ) (u R S lS : ℚ) (lO : ℕ),
      sim.state = .ok st →
      st.effect_probability inst.total_effect qs = .ok R →
      instrumentLoop st inst qs R u inst.num_operations 0 0 0 0 = .ok (S, lS, lO) →
      (S + TOLERANCE ≤ u ∨ lS < TOLERANCE) →
      sim.sample_instrument_with_distribution inst qs u =
        some ({ sim with state := .error .failedToSampleInstrumentOutcome },
              .error .failedToSampleInstrumentOutcome)) ∧
    (∀ (sim : StateVectorSimulator) (st : StateVector) (inst : Instrument)
      (qs : List ℕ) (u R S lS : ℚ) (lO : ℕ) (err : Error),
      sim.state = .ok st →
      st.effect_probability inst.total_effect qs = .ok R →
      instrumentLoop st inst qs R u inst.num_operations 0 0 0 0 = .ok (S, lS, lO) →
      ¬(S + TOLERANCE ≤ u ∨ lS < TOLERANCE) →
      StateVector.sample_kraus_operators
        { st with trace_change := st.trace_change * lS }
        (inst.operation lO).kraus_operators qs lS
        (max ((S - u) / lS * R) 0) = some (.error err) →
      sim.sample_instrument_with_distribution inst qs u =
        some ({ sim with state := .error err }, .error err)) ∧
    (∀ (sim : StateVectorSimulator) (st : StateVector) (op : Operation)
      (qs : List ℕ) (u : ℚ) (e : Error),
      sim.state = .ok st →
      st.effect_probability op.effect_matrix qs = .error e →
      sim.apply_operation op qs u = some (sim, .error e)) ∧
    (∀ (sim : StateVectorSimulator) (st : StateVector) (inst : Instrument)
      (qs : List ℕ) (u : ℚ) (e : Error),
      sim.state = .ok st →
      st.effect_probability inst.total_effect qs = .error e →
      sim.sample_instrument_with_distribution inst qs u = some (sim, .error e)) := by
  refine ⟨?_, ?_, ?_, ?_, ?_, ?_⟩
  · intro sim st op qs u R err hsim hR hsamp
    rw [StateVectorSimulator.apply_operation, hsim]
    simp only
    rw [hR]
    simp only
    rw [hsamp]
  · intro sim st inst qs u R err hsim hR hsamp
    rw [StateVectorSimulator.apply_instrument, hsim]
    simp only
    rw [hR]
    simp only
    rw [hsamp]
  · intro sim st inst qs u R S lS lO hsim hR hloop hguard
    rw [StateVectorSimulator.sample_instrument_with_distribution, hsim]
    simp only
    rw [hR]
    simp only
    rw [hloop]
    simp only
    rw [if_pos hguard]
  · intro sim st inst qs u R S lS lO err hsim hR hloop hguard hsamp
    rw [StateVectorSimulator.sample_instrument_with_distribution, hsim]
    simp only
    rw [hR]
    simp only
    rw [hloop]
    simp only
    rw [if_neg hguard]
    rw [hsamp]
  · intro sim st op qs u e hsim hR
    rw [StateVectorSimulator.apply_operation, hsim]
    simp only
    rw [hR]
  · intro sim st inst qs u e hsim hR
    rw [StateVectorSimulator.sample_instrument_with_distribution, hsim]
    simp only
    rw [hR]

/-- C4 counterexample.  A kernel error raised while computing the effect
probability (qubit `1` is out of range for a 1-qubit register) is returned
by `apply_operation`, yet the simulator is *not* poisoned: it is returned
unchanged, its state slot still `Ok` — contradicting the claim that any such
failure transitions the simulator to the Poisoned state. -/
theorem c4_counterexample :
    (StateVectorSimulator.new 1).apply_operation ⟨matI2, [matX]⟩ [1] 0 =
      some (StateVectorSimulator.new 1, .error .kernelError) ∧
    (StateVectorSimulator.new 1).state = .ok (StateVector.new 1) :=
  ⟨by with_unfolding_all rfl, rfl⟩

theorem c4_poisoning_on_sampling_failure_witness :
    (StateVectorSimulator.new 1).apply_operation ⟨matZero2, [matZero2]⟩ [0] 0 =
      some (StateVectorSimulator.mk (.error .probabilityZeroEvent) 2,
            .error .probabilityZeroEvent) ∧
    (StateVectorSimulator.new 1).sample_instrument_with_distribution
        ⟨[⟨matZero2, [matZero2]⟩]⟩ [0] 0 =
      some (StateVectorSimulator.mk (.error .failedToSampleInstrumentOutcome) 2,
            .error .failedToSampleInstrumentOutcome) ∧
    (StateVectorSimulator.new 1).apply_operation ⟨matI2, [matX]⟩ [2] 0 =
      some (StateVectorSimulator.new 1, .error .kernelError) := by
  refine ⟨?_, ?_, ?_⟩
  · exact c4_poisoning_on_sampling_failure.1 (StateVectorSimulator.new 1)
      (StateVector.new 1) ⟨matZero2, [matZero2]⟩ [0] 0 0 .probabilityZeroEvent rfl
      (by with_unfolding_all rfl) (by with_unfolding_all rfl)
  · exact c4_poisoning_on_sampling_failure.2.2.1 (StateVectorSimulator.new 1)
      (StateVector.new 1) ⟨[⟨matZero2, [matZero2]⟩]⟩ [0] 0 0 0 0 0 rfl
      (by with_unfolding_all rfl) (by with_unfolding_all rfl)
      (Or.inr TOLERANCE_pos)
  · exact c4_poisoning_on_sampling_failure.2.2.2.2.1 (StateVectorSimulator.new 1)
      (StateVector.new 1) ⟨matI2, [matX]⟩ [2] 0 .kernelError rfl
      (by with_unfolding_all rfl)

/-- The `last_non_zero_norm_squared` / `last_non_zero_outcome` record of the
outcome loop either is still its initial `(0, 0)` or holds the effect
probability actually computed for the recorded outcome. -/
theorem instrumentLoop_record_invariant (st : StateVector) (inst : Instrument)
    (qs : List ℕ) (R u : ℚ) :
    ∀ (rem o₀ : ℕ) (S lS : ℚ) (lO : ℕ) (S' lS' : ℚ) (lO' : ℕ),
      (lS = 0 ∧ lO = 0 ∨
        st.effect_probability (inst.operation lO).effect_matrix qs = .ok lS) →
      instrumentLoop st inst qs R u rem o₀ S lS lO = .ok (S', lS', lO') →
      (lS' = 0 ∧ lO' = 0 ∨
        st.effect_probability (inst.operation lO').effect_matrix qs = .ok lS') := by
  intro rem
  induction rem with
  | zero =>
    intro o₀ S lS lO S' lS' lO' hinv h
    rw [instrumentLoop] at h
    simp only [Except.ok.injEq, Prod.mk.injEq] at h
    obtain ⟨-, h2, h3⟩ := h
    subst h2; subst h3
    exact hinv
  | succ rem ih =>
    intro o₀ S lS lO S' lS' lO' hinv h
    rw [instrumentLoop] at h
    cases heff : st.effect_probability (inst.operation o₀).effect_matrix qs with
    | error e => rw [heff] at h; exact absurd h (by simp)
    | ok s =>
      rw [heff] at h
      simp only at h
      by_cases hp : TOLERANCE ≤ s / R
      · simp only [if_pos hp] at h
        by_cases hbreak : u < S + s / R
        · simp only [if_pos hbreak, Except.ok.injEq, Prod.mk.injEq] at h
          obtain ⟨-, h2, h3⟩ := h
          subst h2; subst h3
          exact Or.inr heff
        · simp only [if_neg hbreak] at h
          exact ih (o₀ + 1) (S + s / R) s o₀ S' lS' lO' (Or.inr heff) h
      · simp only [if_neg hp] at h
        by_cases hbreak : u < S + s / R
        · simp only [if_pos hbreak, Except.ok.injEq, Prod.mk.injEq] at h
          obtain ⟨-, h2, h3⟩ := h
          subst h2; subst h3
          exact hinv
        · simp only [if_neg hbreak] at h
          exact ih (o₀ + 1) (S + s / R) lS lO S' lS' lO' hinv h

/-- C6 (amended).  `trace_change` starts at `1`; a successful
`apply_operation` / `apply_instrument` multiplies it by the consumed effect
probability `R`; a successful `sample_instrument_with_distribution`
multiplies it by the selected outcome's effect probability; a valid
`set_trace` sets it to its argument; and a successful `set_state` replaces it
with the *new state's* `trace_change` (which `try_from` never validated, so
it need not be positive) — the last two being the calls, beyond the three
sampling entry points, that change it. -/
theorem c6_trace_change_accounting :
    (∀ n, (StateVectorSimulator.new n).trace_change = .ok 1) ∧
    (∀ (sim : StateVectorSimulator) (st : StateVector) (op : Operation)
      (qs : List ℕ) (u R : ℚ) (st2 : StateVector),
      sim.state = .ok st →
      st.effect_probability op.effect_matrix qs = .ok R →
      StateVector.sample_kraus_operators
        { st with trace_change := st.trace_change * R } op.kraus_operators qs R u =
        some (.ok st2) →
      sim.apply_operation op qs u = some ({ sim with state := .ok st2 }, .ok ()) ∧
      st2.trace_change = st.trace_change * R) ∧
    (∀ (sim : StateVectorSimulator) (st : StateVector) (inst : Instrument)
      (qs : List ℕ) (u R : ℚ) (st2 : StateVector),
      sim.state = .ok st →
      st.effect_probability inst.total_effect qs = .ok R →
      StateVector.sample_kraus_operators
        { st with trace_change := st.trace_change * R }
        inst.non_selective_kraus_operators qs R u = some (.ok st2) →
      sim.apply_instrument inst qs u = some ({ sim with state := .ok st2 }, .ok ()) ∧
      st2.trace_change = st.trace_change * R) ∧
    (∀ (sim : StateVectorSimulator) (st : StateVector) (inst : Instrument)
      (qs : List ℕ) (u s : ℚ) (sim' : StateVectorSimulator) (o : ℕ),
      sim.state = .ok st →
      st.effect_probability (inst.operation o).effect_matrix qs = .ok s →
      sim.sample_instrument_with_distribution inst qs u = some (sim', .ok o) →
      ∃ st2, sim'.state = .ok st2 ∧ st2.trace_change = st.trace_change * s) ∧
    (∀ (sim : StateVectorSimulator) (st : StateVector) (t : ℚ),
      sim.state = .ok st → ¬(t < TOLERANCE ∨ TOLERANCE < t - 1) →
      sim.set_trace t =
        ({ sim with state := .ok { st with trace_change := t } }, .ok ())) ∧
    (∀ (sim : StateVectorSimulator) (new_state : StateVector),
      sim.dim = new_state.dim → new_state.is_normalized →
      ((sim.set_state new_state).1).trace_change = .ok new_state.trace_change) := by
  refine ⟨?_, ?_, ?_, ?_, ?_, ?_⟩
  · intro n; rfl
  · intro sim st op qs u R st2 hsim hR hsamp
    constructor
    · rw [StateVectorSimulator.apply_operation, hsim]
      simp only
      rw [hR]
      simp only
      rw [hsamp]
    · have := (sample_kraus_operators_fields _ _ _ _ _ _ hsamp).1
      simpa using this
  · intro sim st inst qs u R st2 hsim hR hsamp
    constructor
    · rw [StateVectorSimulator.apply_instrument, hsim]
      simp only
      rw [hR]
      simp only
      rw [hsamp]
    · have := (sample_kraus_operators_fields _ _ _ _ _ _ hsamp).1
      simpa using this
  · intro sim st inst qs u s sim' o hsim hs hcall
    rw [StateVectorSimulator.sample_instrument_with_distribution, hsim] at hcall
    simp only at hcall
    cases hR : st.effect_probability inst.total_effect qs with
    | error e => rw [hR] at hcall; exact absurd hcall (by simp)
    | ok R =>
      rw [hR] at hcall
      simp only at hcall
      cases hloop : instrumentLoop st inst qs R u inst.num_operations 0 0 0 0 with
      | error e => rw [hloop] at hcall; exact absurd hcall (by simp)
      | ok triple =>
        obtain ⟨S, lS, lO⟩ := triple
        rw [hloop] at hcall
        simp only at hcall
        split at hcall
        · exact absurd hcall (by simp)
        · rename_i hguard
          cases hsamp : StateVector.sample_kraus_operators
              { st with trace_change := st.trace_change * lS }
              (inst.operation lO).kraus_operators qs lS
              (max ((S - u) / lS * R) 0) with
          | none => rw [hsamp] at hcall; exact absurd hcall (by simp)
          | some r =>
            cases r with
            | error err => rw [hsamp] at hcall; exact absurd hcall (by simp)
            | ok st2 =>
              rw [hsamp] at hcall
              simp only [Option.some.injEq, Prod.mk.injEq, Except.ok.injEq] at hcall
              obtain ⟨hsim', ho⟩ := hcall
              subst ho
              have hlS : TOLERANCE ≤ lS := by
                push_neg at hguard
                exact hguard.2
              have hrec := instrumentLoop_record_invariant st inst qs R u
                inst.num_operations 0 0 0 0 S lS lO (Or.inl ⟨rfl, rfl⟩) hloop
              have hs_eq : s = lS := by
                rcases hrec with ⟨h0, -⟩ | heff
                · rw [h0] at hlS
                  exact absurd hlS (not_le.mpr TOLERANCE_pos)
                · rw [heff] at hs
                  injection hs with h'
                  exact h'.symm
              refine ⟨st2, ?_, ?_⟩
              · rw [← hsim']
              · have := (sample_kraus_operators_fields _ _ _ _ _ _ hsamp).1
                rw [hs_eq]
                simpa using this
  · intro sim st t hsim ht
    rw [StateVectorSimulator.set_trace, if_neg ht, hsim]
  · intro sim new_state h1 h2
    rw [(c7_set_state_validation sim new_state).2 h1 h2]
    rfl

/-- C6 counterexample.  A successful `set_state` — not `set_trace`, not one
of the sampling entry points — changes `trace_change`: it installs the new
state's (unvalidated) trace, here from `1` to `-2`, which also refutes
"stays strictly positive". -/
theorem c6_counterexample :
    StateVector.try_from 1 0 (-2) [⟨1, 0⟩] =
      some (StateVector.mk 1 0 (-2) [⟨1, 0⟩] 1) ∧
    (StateVectorSimulator.new 0).trace_change = .ok 1 ∧
    ((StateVectorSimulator.new 0).set_state (StateVector.mk 1 0 (-2) [⟨1, 0⟩] 1)).2 =
      .ok () ∧
    (((StateVectorSimulator.new 0).set_state
        (StateVector.mk 1 0 (-2) [⟨1, 0⟩] 1)).1).trace_change = .ok (-2) ∧
    ¬(0 : ℚ) < -2 :=
  ⟨by with_unfolding_all rfl, rfl, by with_unfolding_all rfl,
   by with_unfolding_all rfl, by norm_num⟩

theorem c6_trace_change_accounting_witness :
    (StateVectorSimulator.new 1).trace_change = .ok 1 ∧
    (StateVectorSimulator.new 1).apply_operation ⟨matI2, [matX]⟩ [0] 0 =
      some ({ StateVectorSimulator.new 1 with
                state := .ok (StateVector.mk 2 1 (1 * 1) [⟨0, 0⟩, ⟨1, 0⟩] (1 * 1)) },
            .ok ()) ∧
    (StateVector.mk 2 1 (1 * 1) [⟨0, 0⟩, ⟨1, 0⟩] (1 * 1)).trace_change = 1 * 1 ∧
    (StateVectorSimulator.mk
        (.ok (StateVector.mk 2 1 1 [⟨1, 0⟩, ⟨0, 0⟩] 1)) 2).set_trace (1 / 2) =
      ({ state := .ok (StateVector.mk 2 1 (1 / 2) [⟨1, 0⟩, ⟨0, 0⟩] 1), dim := 2 },
       .ok ()) := by
  have hb := c6_trace_change_accounting.2.1 (StateVectorSimulator.new 1)
    (StateVector.new 1) ⟨matI2, [matX]⟩ [0] 0 1
    (StateVector.mk 2 1 (1 * 1) [⟨0, 0⟩, ⟨1, 0⟩] (1 * 1)) rfl
    (by with_unfolding_all rfl) (by with_unfolding_all rfl)
  have he := c6_trace_change_accounting.2.2.2.2.1
    (StateVectorSimulator.mk (.ok (StateVector.mk 2 1 1 [⟨1, 0⟩, ⟨0, 0⟩] 1)) 2)
    (StateVector.mk 2 1 1 [⟨1, 0⟩, ⟨0, 0⟩] 1) (1 / 2) rfl
    (by norm_num [TOLERANCE])
  exact ⟨c6_trace_change_accounting.1 1, hb.1, hb.2, he⟩

theorem sampleKrausLoop_kernelErr_kind (data : ComplexVector) (den : ℚ)
    (qubits : List ℕ) (R u : ℚ) :
    ∀ (ks : List SquareMatrix) (i₀ : ℕ) (S lp : ℚ) (li : ℕ) (e : Error),
      sampleKrausLoop data den qubits R u ks i₀ S lp li = .kernelErr e →
      e = .kernelError := by
  intro ks
  induction ks with
  | nil =>
    intro i₀ S lp li e h
    rw [sampleKrausLoop] at h
    exact absurd h (by simp)
  | cons K rest ih =>
    intro i₀ S lp li e h
    rw [sampleKrausLoop] at h
    cases happly : apply_kernel data K qubits with
    | error e' =>
      rw [happly] at h
      simp only [KrausLoopResult.kernelErr.injEq] at h
      subst h
      exact apply_kernel_error_kind _ _ _ _ happly
    | ok copy =>
      rw [happly] at h
      simp only at h
      by_cases hp : TOLERANCE ≤ normSqV copy / den / R
      · rw [if_pos hp] at h
        by_cases hu : u < S + normSqV copy / den / R
        · rw [if_pos hu] at h; exact absurd h (by simp)
        · rw [if_neg hu] at h
          exact ih (i₀ + 1) (S + normSqV copy / den / R) (normSqV copy / den / R) i₀ e h
      · rw [if_neg hp] at h
        exact ih (i₀ + 1) (S + normSqV copy / den / R) lp li e h

/-- Every error `sample_kraus_operators` can return is a kernel error, the
CDF-drift guard error, or a renormalization failure — in particular never
`FailedToSampleInstrumentOutcome`. -/
theorem sample_kraus_operators_error_kinds (st : StateVector) (ks : List SquareMatrix)
    (qs : List ℕ) (R u : ℚ) (e : Error)
    (h : st.sample_kraus_operators ks qs R u = some (.error e)) :
    e = .kernelError ∨ e = .failedToSampleKrausOperators ∨
      e = .probabilityZeroEvent := by
  rw [StateVector.sample_kraus_operators] at h
  cases hloop : sampleKrausLoop st.data st.normDen qs R u ks 0 0 0 0 with
  | kernelErr e' =>
    rw [hloop] at h
    simp only [Option.some.injEq, Except.error.injEq] at h
    exact Or.inl (h ▸ sampleKrausLoop_kernelErr_kind st.data st.normDen qs R u ks
      0 0 0 0 e' hloop)
  | committed i ns d =>
    rw [hloop] at h
    simp only [Option.some.injEq] at h
    rw [StateVector.renormalize_with_norm_squared] at h
    split at h
    · simp only [Except.error.injEq] at h
      subst h
      exact Or.inr (Or.inr rfl)
    · exact absurd h (by simp)
  | fellThrough S lp li =>
    rw [hloop] at h
    simp only at h
    split at h
    · simp only [Option.some.injEq, Except.error.injEq] at h
      subst h
      exact Or.inr (Or.inl rfl)
    · cases hidx : ks[li]? with
      | none => rw [hidx] at h; exact absurd h (by simp)
      | some K =>
        rw [hidx] at h
        simp only at h
        cases hker : apply_kernel st.data K qs with
        | error e' =>
          rw [hker] at h
          simp only [Option.some.injEq, Except.error.injEq] at h
          subst h
          exact Or.inl (apply_kernel_error_kind _ _ _ _ hker)
        | ok d =>
          rw [hker] at h
          simp only at h
          cases hren : StateVector.renormalize { st with data := d } with
          | error e' =>
            rw [hren] at h
            simp only [Option.some.injEq, Except.error.injEq] at h
            subst h
            exact Or.inr (Or.inr (renormalize_error_kind _ _ hren))
          | ok st2 => rw [hren] at h; exact absurd h (by simp)

/-- With random sample `0`, the outcome loop runs through the outcomes before
`ostar` (which all have effect probability exactly `0`), records `ostar` — the
first outcome whose probability reaches `TOLERANCE` — and breaks there. -/
theorem instrumentLoop_first_positive (st : StateVector) (inst : Instrument)
    (qs : List ℕ) (R s : ℚ) (ostar : ℕ)
    (hstar : st.effect_probability (inst.operation ostar).effect_matrix qs = .ok s)
    (hp : TOLERANCE ≤ s / R) :
    ∀ (d o₀ rem : ℕ),
      ostar = o₀ + d → d < rem →
      (∀ o, o₀ ≤ o → o < ostar →
        st.effect_probability (inst.operation o).effect_matrix qs = .ok 0) →
      instrumentLoop st inst qs R 0 rem o₀ 0 0 0 = .ok (0 + s / R, s, ostar) := by
  intro d
  induction d with
  | zero =>
    intro o₀ rem h0 hrem hzero
    cases rem with
    | zero => omega
    | succ rem' =>
      have ho : o₀ = ostar := by omega
      subst ho
      rw [instrumentLoop, hstar]
      simp only
      rw [if_pos hp, if_pos hp]
      have hb : (0 : ℚ) < 0 + s / R := by
        have := TOLERANCE_pos
        linarith
      rw [if_pos hb]
  | succ d ih =>
    intro o₀ rem h0 hrem hzero
    cases rem with
    | zero => omega
    | succ rem' =>
      have hz := hzero o₀ (le_refl o₀) (by omega)
      rw [instrumentLoop, hz]
      simp only
      have hp0 : ¬ TOLERANCE ≤ (0 : ℚ) / R := by
        rw [zero_div]
        exact not_le.mpr TOLERANCE_pos
      rw [if_neg hp0, if_neg hp0]
      have hb : ¬ ((0 : ℚ) < 0 + 0 / R) := by
        rw [zero_div, add_zero]
        exact lt_irrefl 0
      rw [if_neg hb]
      have harg : (0 : ℚ) + 0 / R = 0 := by rw [zero_div, add_zero]
      rw [harg]
      exact ih (o₀ + 1) rem' (by omega) (by omega)
        (fun o ho1 ho2 => hzero o (by omega) ho2)

/-- C3 (amended).  Calling `sample_instrument_with_distribution` with random
sample `0`, when every outcome before `ostar` has effect probability exactly
`0` and outcome `ostar` has probability `p = s/R ≥ TOLERANCE` with
`s ≥ TOLERANCE`, makes the outer loop select `ostar`; the
`FailedToSampleInstrumentOutcome` guard does not fire, and the call returns
`Ok ostar` precisely when the inner Kraus sampling (run with rescaled sample
`((s/R)/s)·R`, i.e. exactly `1`) succeeds — which it need not: the original
claim fails because the inner sampling can fail even when such an outcome
exists (see the counterexample). -/
theorem c3_sample_instrument_u_zero (sim : StateVectorSimulator) (st : StateVector)
    (inst : Instrument) (qs : List ℕ) (R s : ℚ) (ostar : ℕ)
    (hsim : sim.state = .ok st)
    (hR : st.effect_probability inst.total_effect qs = .ok R)
    (hostar : ostar < inst.num_operations)
    (hzero : ∀ o, o < ostar →
      st.effect_probability (inst.operation o).effect_matrix qs = .ok 0)
    (hstar : st.effect_probability (inst.operation ostar).effect_matrix qs = .ok s)
    (hp : TOLERANCE ≤ s / R) (hs : TOLERANCE ≤ s) :
    sim.sample_instrument_with_distribution inst qs 0 =
      (match StateVector.sample_kraus_operators
          { st with trace_change := st.trace_change * s }
          (inst.operation ostar).kraus_operators qs s
          (max ((0 + s / R - 0) / s * R) 0) with
       | none => none
       | some (.error err) => some ({ sim with state := .error err }, .error err)
       | some (.ok st2) => some ({ sim with state := .ok st2 }, .ok ostar)) ∧
    (∀ (sim' : StateVectorSimulator) (r : Except Error ℕ),
      sim.sample_instrument_with_distribution inst qs 0 = some (sim', r) →
      r ≠ .error .failedToSampleInstrumentOutcome ∧ ∀ m, r = .ok m → m = ostar) := by
  have hloop := instrumentLoop_first_positive st inst qs R s ostar hstar hp
    ostar 0 inst.num_operations (by omega) hostar
    (fun o _ ho2 => hzero o ho2)
  have hguard : ¬((0 + s / R) + TOLERANCE ≤ 0 ∨ s < TOLERANCE) := by
    push_neg
    constructor
    · have := TOLERANCE_pos
      linarith
    · exact hs
  have hfun : sim.sample_instrument_with_distribution inst qs 0 =
      (match StateVector.sample_kraus_operators
          { st with trace_change := st.trace_change * s }
          (inst.operation ostar).kraus_operators qs s
          (max ((0 + s / R - 0) / s * R) 0) with
       | none => none
       | some (.error err) => some ({ sim with state := .error err }, .error err)
       | some (.ok st2) => some ({ sim with state := .ok st2 }, .ok ostar)) := by
    rw [StateVectorSimulator.sample_instrument_with_distribution, hsim]
    simp only
    rw [hR]
    simp only
    rw [hloop]
    simp only
    rw [if_neg hguard]
  refine ⟨hfun, ?_⟩
  intro sim' r hcall
  rw [hfun] at hcall
  cases hsamp : StateVector.sample_kraus_operators
      { st with trace_change := st.trace_change * s }
      (inst.operation ostar).kraus_operators qs s
      (max ((0 + s / R - 0) / s * R) 0) with
  | none => rw [hsamp] at hcall; exact absurd hcall (by simp)
  | some res =>
    cases res with
    | error err =>
      rw [hsamp] at hcall
      simp only [Option.some.injEq, Prod.mk.injEq] at hcall
      obtain ⟨-, hr⟩ := hcall
      subst hr
      constructor
      · intro hc
        simp only [Except.error.injEq] at hc
        rcases sample_kraus_operators_error_kinds _ _ _ _ _ _ hsamp with h | h | h <;>
          · rw [hc] at h
            exact Error.noConfusion h
      · intro m hm
        exact absurd hm (by simp)
    | ok st2 =>
      rw [hsamp] at hcall
      simp only [Option.some.injEq, Prod.mk.injEq] at hcall
      obtain ⟨-, hr⟩ := hcall
      subst hr
      exact ⟨by simp, fun m hm => by simpa using hm.symm⟩

/-- C3 counterexample.  On the fresh one-qubit simulator (state `|0⟩`) and the
computational-basis measurement instrument, the very first outcome has
probability `1 ≥ TOLERANCE` (with `R = 1`), so by the claim
`sample_instrument_with_distribution(…, u = 0)` should select it and return
its index — but the call fails (the inner Kraus sampling gets rescaled sample
exactly `1`, never strictly exceeded by its cumulative sum, and poisons the
simulator with `FailedToSampleKrausOperators`). -/
theorem c3_counterexample :
    TOLERANCE ≤ (1 : ℚ) / 1 ∧
    (StateVector.new 1).effect_probability zInstrument.total_effect [0] = .ok 1 ∧
    (StateVector.new 1).effect_probability
      (zInstrument.operation 0).effect_matrix [0] = .ok 1 ∧
    (StateVectorSimulator.new 1).sample_instrument_with_distribution
        zInstrument [0] 0 =
      some (StateVectorSimulator.mk (.error .failedToSampleKrausOperators) 2,
            .error .failedToSampleKrausOperators) :=
  ⟨by norm_num [TOLERANCE], by with_unfolding_all rfl, by with_unfolding_all rfl,
   by with_unfolding_all rfl⟩

theorem c3_sample_instrument_u_zero_witness :
    (StateVectorSimulator.new 1).sample_instrument_with_distribution
        zInstrument [0] 0 =
      (match StateVector.sample_kraus_operators
          { StateVector.new 1 with
              trace_change := (StateVector.new 1).trace_change * 1 }
          (zInstrument.operation 0).kraus_operators [0] 1
          (max ((0 + 1 / 1 - 0) / 1 * 1) 0) with
       | none => none
       | some (.error err) =>
         some ({ StateVectorSimulator.new 1 with state := .error err }, .error err)
       | some (.ok st2) =>
         some ({ StateVectorSimulator.new 1 with state := .ok st2 }, .ok 0)) ∧
    ((.error .failedToSampleKrausOperators : Except Error ℕ) ≠
      .error .failedToSampleInstrumentOutcome) := by
  have h := c3_sample_instrument_u_zero (StateVectorSimulator.new 1)
    (StateVector.new 1) zInstrument [0] 1 1 0 rfl (by with_unfolding_all rfl)
    (by decide) (fun o ho => absurd ho (Nat.not_lt_zero o))
    (by with_unfolding_all rfl) (by norm_num [TOLERANCE]) (by norm_num [TOLERANCE])
  refine ⟨h.1, ?_⟩
  exact (h.2 (StateVectorSimulator.mk (.error .failedToSampleKrausOperators) 2)
    (.error .failedToSampleKrausOperators) (by with_unfolding_all rfl)).1

/-- C8 (amended).  If the operation's total effect probability `R` on the
current state is below `TOLERANCE` (with the caller's Kraus-sum invariant,
`Σᵢ ‖Kᵢψ‖² = R`, and a non-empty Kraus list), then `apply_operation` fails
and poisons the simulator for every random sample `u < 1` — but not always
with `ProbabilityZeroEvent` as claimed: on the path where some branch reached
`TOLERANCE` in relative probability yet the cumulative sum never exceeded
`u`, the error is `FailedToSampleKrausOperators` instead (see the
counterexample); on every other path it is `ProbabilityZeroEvent`, raised by
renormalizing a sub-`TOLERANCE` norm. -/
theorem c8_sub_tolerance_effect_fails (sim : StateVectorSimulator) (st : StateVector)
    (op : Operation) (qs : List ℕ) (u R : ℚ) (ss : List ℚ)
    (hsim : sim.state = .ok st)
    (hden : 0 < st.normDen)
    (hR : st.effect_probability op.effect_matrix qs = .ok R)
    (hRtol : R < TOLERANCE)
    (hss : trialNSs st.data st.normDen qs op.kraus_operators = some ss)
    (hsum : ss.sum = R)
    (hne : op.kraus_operators ≠ [])
    (_hu1 : u < 1) :
    ∃ e, sim.apply_operation op qs u =
        some ({ sim with state := .error e }, .error e) ∧
      (e = .probabilityZeroEvent ∨ e = .failedToSampleKrausOperators) := by
  have hnonneg := trialNSs_elem_nonneg st.data st.normDen hden qs op.kraus_operators ss hss
  have hmain : ∃ e, StateVector.sample_kraus_operators
      { st with trace_change := st.trace_change * R } op.kraus_operators qs R u =
        some (.error e) ∧
      (e = .probabilityZeroEvent ∨ e = .failedToSampleKrausOperators) := by
    cases hloop : sampleKrausLoop st.data st.normDen qs R u op.kraus_operators 0 0 0 0 with
    | kernelErr e' =>
      exact absurd hloop (sampleKrausLoop_not_kernelErr st.data st.normDen qs R u
        op.kraus_operators ss 0 0 0 0 e' hss)
    | committed i ns d =>
      obtain ⟨k, ssT, hk, hi, hssT, hlenT, hker, hnd, hnsT, htol, hsumT, hleast⟩ :=
        sampleKrausLoop_committed_charac st.data st.normDen qs R u
          op.kraus_operators 0 0 0 0 i ns d hloop
      have hgetD := trialNSs_getD st.data st.normDen qs op.kraus_operators ss hss k hk
      rw [trialNS, hker] at hgetD
      simp only [Option.some.injEq] at hgetD
      have hnv : ns = ss.getD k 0 := by rw [hnd, hgetD]
      have hkl : k < ss.length := by
        rw [trialNSs_length st.data st.normDen qs op.kraus_operators ss hss]
        exact hk
      have hmem : ss.getD k 0 ∈ ss := by
        rw [List.getD_eq_getElem ss 0 hkl]
        exact List.getElem_mem hkl
      have hle : ss.getD k 0 ≤ R := by
        rw [← hsum]
        exact List.single_le_sum hnonneg _ hmem
      have hns_lt : ns < TOLERANCE := by
        rw [hnv]
        exact lt_of_le_of_lt hle hRtol
      refine ⟨.probabilityZeroEvent, ?_, Or.inl rfl⟩
      rw [StateVector.sample_kraus_operators]
      simp only
      rw [hloop]
      simp only
      rw [StateVector.renormalize_with_norm_squared, if_pos hns_lt]
    | fellThrough S lp li =>
      obtain ⟨ss₂, hss₂, hlen₂, hS, hlz, hnc⟩ :=
        sampleKrausLoop_fellThrough_charac st.data st.normDen qs R u
          op.kraus_operators 0 0 0 0 S lp li hloop
      have hsseq : ss₂ = ss := Option.some.inj (hss₂.symm.trans hss)
      subst hsseq
      by_cases hguard : u < S + TOLERANCE ∧ TOLERANCE ≤ lp
      · refine ⟨.failedToSampleKrausOperators, ?_, Or.inr rfl⟩
        rw [StateVector.sample_kraus_operators]
        simp only
        rw [hloop]
        simp only
        rw [if_pos hguard]
      · have hli : li < op.kraus_operators.length := by
          rcases lastNZ_cases R ss₂ 0 (0, 0) with hcase | ⟨j, hj, hcase, -⟩
          · rw [hcase] at hlz
            have h0 : li = 0 := congrArg Prod.snd hlz
            subst h0
            exact List.length_pos.mpr hne
          · rw [hcase] at hlz
            have h0 : li = 0 + j := congrArg Prod.snd hlz
            subst h0
            rw [hlen₂] at hj
            omega
        have hgetD := trialNSs_getD st.data st.normDen qs op.kraus_operators ss₂ hss li hli
        cases hker2 : apply_kernel st.data (op.kraus_operators.getD li []) qs with
        | error e2 => rw [trialNS, hker2] at hgetD; exact absurd hgetD (by simp)
        | ok d2 =>
          rw [trialNS, hker2] at hgetD
          simp only [Option.some.injEq] at hgetD
          have hlil : li < ss₂.length := by
            rw [trialNSs_length st.data st.normDen qs op.kraus_operators ss₂ hss]
            exact hli
          have hmem : ss₂.getD li 0 ∈ ss₂ := by
            rw [List.getD_eq_getElem ss₂ 0 hlil]
            exact List.getElem_mem hlil
          have hle : ss₂.getD li 0 ≤ R := by
            rw [← hsum]
            exact List.single_le_sum hnonneg _ hmem
          have hcond : StateVector.norm_squared
              { st with trace_change := st.trace_change * R, data := d2 } <
                TOLERANCE := by
            rw [StateVector.norm_squared]
            simp only
            rw [hgetD]
            exact lt_of_le_of_lt hle hRtol
          refine ⟨.probabilityZeroEvent, ?_, Or.inl rfl⟩
          rw [StateVector.sample_kraus_operators]
          simp only
          rw [hloop]
          simp only
          rw [if_neg hguard, List.getElem?_eq_getElem hli]
          simp only
          have hgd : op.kraus_operators.getD li [] = op.kraus_operators[li] :=
            List.getD_eq_getElem _ _ hli
          rw [← hgd, hker2]
          simp only
          rw [StateVector.renormalize, StateVector.renormalize_with_norm_squared,
            if_pos hcond]
  obtain ⟨e, hsamp, hkind⟩ := hmain
  refine ⟨e, ?_, hkind⟩
  rw [StateVectorSimulator.apply_operation, hsim]
  simp only
  rw [hR]
  simp only
  rw [hsamp]

/-- First Kraus operator of the C8 counterexample: `diag(2⁻²², 0)`, so
`‖K₀|0⟩‖² = 2⁻⁴⁴`. -/
def c8K0 : SquareMatrix := [[⟨1 / 4194304, 0⟩, ⟨0, 0⟩], [⟨0, 0⟩, ⟨0, 0⟩]]

/-- Small Kraus operator of the C8 counterexample: `diag(2⁻⁴³, 0)`, so
`‖K₁|0⟩‖² = 2⁻⁸⁶` and its relative probability is below `TOLERANCE`. -/
def c8K1 : SquareMatrix := [[⟨1 / 8796093022208, 0⟩, ⟨0, 0⟩], [⟨0, 0⟩, ⟨0, 0⟩]]

/-- Total effect probability of the C8 counterexample on `|0⟩`:
`2⁻⁴⁴ + 2⁻⁸⁵ < TOLERANCE`. -/
def c8R : ℚ := 1 / 17592186044416 + 1 / 38685626227668133590597632

/-- The C8 counterexample operation: effect `diag(c8R, 0)` with Kraus list
`[K₀, K₁, K₁]`, which satisfies `Σ Kᵢ†Kᵢ = E` exactly. -/
def c8Op : Operation :=
  ⟨[[⟨c8R, 0⟩, ⟨0, 0⟩], [⟨0, 0⟩, ⟨0, 0⟩]], [c8K0, c8K1, c8K1]⟩

/-- The random sample of the C8 counterexample: exactly
`p₀ = 2⁴¹/(2⁴¹ + 1) ∈ [0, 1)`, so branch `0` fails to strictly exceed it and
the sub-`TOLERANCE` branches cannot commit. -/
def c8u : ℚ := 2199023255552 / 2199023255553

/-- C8 counterexample.  An operation whose total effect probability on `|0⟩`
is `c8R < TOLERANCE` (its Kraus trial norms sum to exactly `c8R`, i.e. the
caller invariant holds), together with the random sample `c8u ∈ [0, 1)`,
makes `apply_operation` fail with `FailedToSampleKrausOperators` — not with
`ProbabilityZeroEvent` as the claim demands for every `u ∈ [0, 1)`. -/
theorem c8_counterexample :
    (StateVector.new 1).effect_probability c8Op.effect_matrix [0] = .ok c8R ∧
    c8R < TOLERANCE ∧
    trialNSs (StateVector.new 1).data (StateVector.new 1).normDen [0]
        c8Op.kraus_operators =
      some [1 / 17592186044416, 1 / 77371252455336267181195264,
            1 / 77371252455336267181195264] ∧
    (1 / 17592186044416 : ℚ) + (1 / 77371252455336267181195264 +
      (1 / 77371252455336267181195264 + 0)) = c8R ∧
    (0 : ℚ) ≤ c8u ∧ c8u < 1 ∧
    (StateVectorSimulator.new 1).apply_operation c8Op [0] c8u =
      some (StateVectorSimulator.mk (.error .failedToSampleKrausOperators) 2,
            .error .failedToSampleKrausOperators) ∧
    Error.failedToSampleKrausOperators ≠ Error.probabilityZeroEvent :=
  ⟨by with_unfolding_all rfl, by norm_num [c8R, TOLERANCE],
   by with_unfolding_all rfl, by norm_num [c8R],
   by norm_num [c8u], by norm_num [c8u],
   by with_unfolding_all rfl, by simp⟩

theorem c8_sub_tolerance_effect_fails_witness :
    ((StateVectorSimulator.new 1).apply_operation ⟨matZero2, [matZero2]⟩ [0] 0).isSome ∧
    (0 : ℚ) < TOLERANCE := by
  obtain ⟨e, he, -⟩ := c8_sub_tolerance_effect_fails (StateVectorSimulator.new 1)
    (StateVector.new 1) ⟨matZero2, [matZero2]⟩ [0] 0 0 [0] rfl (by norm_num [StateVector.new])
    (by with_unfolding_all rfl) TOLERANCE_pos (by with_unfolding_all rfl)
    (by norm_num) (by simp) (by norm_num)
  rw [he]
  exact ⟨rfl, TOLERANCE_pos⟩

end NoisySim
